import Mathlib

/-!
# Graph templates and instance partitioning (`graph.c`)

A shallow embedding of `src/graph.c` and of the macros of `src/graph_ident.h`.

* C strings are `String`s; a nullable `char *` is an `Option String`. Where the code
  counts or cuts bytes (`graph_get_title` and the buffer of `graph_inst_search`), the
  bytes are those of the UTF-8 encoding (`c_bytes`), and a buffer is a list of bytes.
* A pointer that the code tests against `NULL` is an `Option`; a pointer the
  code dereferences without a test is a plain value.
* A `graph_instance_t *` taken from `cfg->instances[i]` is represented by its
  position `i` in the instance array; `instances_num` is the length of the list.
* Every allocation that may fail takes a `Bool` saying whether it succeeds.
* Functions that mutate `*cfg` return the new template next to their status.
-/

namespace Collection4

/-! ## C library -/

/-- The value of `EINVAL` in `<errno.h>`. -/
def EINVAL : Int := 22

/-- The value of `ENOMEM` in `<errno.h>`. -/
def ENOMEM : Int := 12

/-- The loop of `strcmp`; only the sign of the result is kept. -/
def strcmp_loop : List Char → List Char → Int
  | [], [] => 0
  | [], _ :: _ => -1
  | _ :: _, [] => 1
  | a :: as, b :: bs =>
    if a = b then strcmp_loop as bs else if a < b then -1 else 1

/-- The function `strcmp` of `<string.h>` (sign of the result). -/
def strcmp (a b : String) : Int := strcmp_loop a.data b.data

/-- The loop of `strcasecmp`: both bytes go through `tolower` before they are compared. -/
def strcasecmp_loop : List Char → List Char → Int
  | [], [] => 0
  | [], _ :: _ => -1
  | _ :: _, [] => 1
  | a :: as, b :: bs =>
    if a.toLower = b.toLower then strcasecmp_loop as bs
    else if a.toLower < b.toLower then -1 else 1

/-- The function `strcasecmp` of `<strings.h>` (sign of the result). -/
def strcasecmp (a b : String) : Int := strcasecmp_loop a.data b.data

/-! ## `graph_ident.h` -/

/-- The macro `ANY_TOKEN`. -/
def ANY_TOKEN : String := "/any/"

/-- The macro `ALL_TOKEN`. -/
def ALL_TOKEN : String := "/all/"

/-- The macro `IS_ANY(str)`: `((str) != NULL) && (strcasecmp (ANY_TOKEN, (str)) == 0)`. -/
def IS_ANY (str : Option String) : Bool :=
  match str with
  | none => false
  | some s => strcasecmp ANY_TOKEN s == 0

/-- The macro `IS_ALL(str)`: `((str) != NULL) && (strcasecmp (ALL_TOKEN, (str)) == 0)`. -/
def IS_ALL (str : Option String) : Bool :=
  match str with
  | none => false
  | some s => strcasecmp ALL_TOKEN s == 0

/-- The macro `IDENT_FLAG_REPLACE_ALL`. -/
def IDENT_FLAG_REPLACE_ALL : Nat := 0x01

/-- The macro `IDENT_FLAG_REPLACE_ANY`. -/
def IDENT_FLAG_REPLACE_ANY : Nat := 0x02

/-- Modelled from the spec: the struct behind `graph_ident_t`, which `graph_ident.h` only
declares. The spec's data model gives it the five fields host, plugin, plugin_instance,
type and type_instance, each a string that may be empty. -/
structure graph_ident_t where
  host : String
  plugin : String
  plugin_instance : String
  type : String
  type_instance : String
  deriving DecidableEq, Repr

/-- Modelled from the spec: the enumeration `graph_ident_field_t` used by `graph.c`, whose
declaration is missing; one value for each of the five fields of an identifier. -/
inductive graph_ident_field_t where
  | GIF_HOST
  | GIF_PLUGIN
  | GIF_PLUGIN_INSTANCE
  | GIF_TYPE
  | GIF_TYPE_INSTANCE
  deriving DecidableEq, Repr, Fintype

open graph_ident_field_t

/-- The value an identifier holds in a field. -/
def graph_ident_t.get (ident : graph_ident_t) : graph_ident_field_t → String
  | GIF_HOST => ident.host
  | GIF_PLUGIN => ident.plugin
  | GIF_PLUGIN_INSTANCE => ident.plugin_instance
  | GIF_TYPE => ident.type
  | GIF_TYPE_INSTANCE => ident.type_instance

/-- Modelled from the spec: the accessor `ident_get_field`, missing from the sources
("field accessors for all five fields"). A null identifier has no field value. -/
def ident_get_field (ident : Option graph_ident_t) (field : graph_ident_field_t) :
    Option String :=
  match ident with
  | none => none
  | some i => some (i.get field)

/-- Modelled from the spec: `ident_clone`, missing from the sources ("deep copy"); it
fails only when its allocation fails. -/
def ident_clone (ident : graph_ident_t) (alloc_ok : Bool) : Option graph_ident_t :=
  if alloc_ok then some ident else none

/-- Modelled from the spec: the per-field rule of `matches(selector, ident)`: "a field
matches if the selector's field is ANY, is ALL, or is case-insensitive-equal to the
candidate's field". -/
def part_matches (sel val : String) : Bool :=
  IS_ANY (some sel) || IS_ALL (some sel) || strcasecmp sel val == 0

/-- Modelled from the spec: `ident_matches`, declared in `graph_ident.h` and defined
elsewhere: the per-field test, "all five fields must match". -/
def ident_matches (selector ident : graph_ident_t) : Bool :=
  part_matches selector.host ident.host
    && part_matches selector.plugin ident.plugin
    && part_matches selector.plugin_instance ident.plugin_instance
    && part_matches selector.type ident.type
    && part_matches selector.type_instance ident.type_instance

/-- Modelled from the spec: `ident_compare`, declared in `graph_ident.h` and defined
elsewhere: "lexicographic over the five fields in fixed order (host, plugin,
plugin_instance, type, type_instance), using case-sensitive byte comparison per field";
the result is -1, 0 or 1. -/
def ident_compare (i0 i1 : graph_ident_t) : Int :=
  if strcmp i0.host i1.host != 0 then strcmp i0.host i1.host
  else if strcmp i0.plugin i1.plugin != 0 then strcmp i0.plugin i1.plugin
  else if strcmp i0.plugin_instance i1.plugin_instance != 0 then
    strcmp i0.plugin_instance i1.plugin_instance
  else if strcmp i0.type i1.type != 0 then strcmp i0.type i1.type
  else strcmp i0.type_instance i1.type_instance

/-- Modelled from the spec: the per-field rule of `withSelector`: a concrete literal of
the selector is copied; for ANY the identifier's value is copied; for ALL the field is
set to the ALL token; a wildcard whose flag is not set is passed through. -/
def part_copy_with_selector (sel val : String) (flags : Nat) : String :=
  if IS_ANY (some sel) then
    if flags &&& IDENT_FLAG_REPLACE_ANY != 0 then val else sel
  else if IS_ALL (some sel) then
    if flags &&& IDENT_FLAG_REPLACE_ALL != 0 then ALL_TOKEN else sel
  else sel

/-- Modelled from the spec: `ident_copy_with_selector`, declared in `graph_ident.h` and
defined elsewhere: `withSelector(selector, ident, flags)` applies the per-field rule to
each of the five fields independently and fails only when its allocation fails; without
a selector there is no identifier to build. -/
def ident_copy_with_selector (selector : Option graph_ident_t) (ident : graph_ident_t)
    (flags : Nat) (alloc_ok : Bool) : Option graph_ident_t :=
  match selector with
  | none => none
  | some sel =>
    if alloc_ok then
      some
        { host := part_copy_with_selector sel.host ident.host flags
          plugin := part_copy_with_selector sel.plugin ident.plugin flags
          plugin_instance :=
            part_copy_with_selector sel.plugin_instance ident.plugin_instance flags
          type := part_copy_with_selector sel.type ident.type flags
          type_instance :=
            part_copy_with_selector sel.type_instance ident.type_instance flags }
    else none

/-! ## Instances (`graph_instance.h`, not among the sources) -/

/-- Modelled from the spec: the struct behind `graph_instance_t`, missing from the
sources: an instance "owns a canonical Identifier and an ordered collection of
underlying file Identifiers". -/
structure graph_instance_t where
  select : graph_ident_t
  files : List graph_ident_t
  deriving DecidableEq, Repr

/-- The struct `graph_config_s`. `defs` is a handle of the external `graph_def_t` list;
`instances_num` is `instances.length`. -/
structure graph_config_t where
  select : Option graph_ident_t
  title : Option String
  vertical_label : Option String
  show_zero : Bool
  defs : Option Nat
  instances : List graph_instance_t
  deriving DecidableEq, Repr

/-- Modelled from the spec: `inst_create`, missing from the sources: a new instance gets
the canonical identifier `withSelector(T.selector, f, substitute-ANY-and-ALL)` and an
empty file list; it fails only when an allocation fails. -/
def inst_create (cfg : graph_config_t) (file : graph_ident_t) (alloc_ok : Bool) :
    Option graph_instance_t :=
  match ident_copy_with_selector cfg.select file
      (IDENT_FLAG_REPLACE_ALL ||| IDENT_FLAG_REPLACE_ANY) alloc_ok with
  | none => none
  | some c => some { select := c, files := [] }

/-- Modelled from the spec: `inst_add_file`, missing from the sources: "add f to the
Instance's underlying file list (append; duplicates of the same file are accepted and
simply re-added)"; an allocation failure is reported as `ENOMEM` and changes nothing. -/
def inst_add_file (inst : graph_instance_t) (file : graph_ident_t) (alloc_ok : Bool) :
    Int × graph_instance_t :=
  if alloc_ok then (0, { inst with files := inst.files ++ [file] }) else (ENOMEM, inst)

/-- Modelled from the spec: `inst_matches_ident`, missing from the sources: the test of
the fuzzy lookup, "the Instance whose canonical identifier matches (wildcard-aware) a
given Identifier". -/
def inst_matches_ident (inst : graph_instance_t) (ident : graph_ident_t) : Bool :=
  ident_matches inst.select ident

/-- Modelled from the spec: `inst_compare_ident`, missing from the sources: the test of
the exact lookup, the instance's canonical identifier `compare`d with an identifier. -/
def inst_compare_ident (inst : graph_instance_t) (ident : graph_ident_t) : Int :=
  ident_compare inst.select ident

/-- Modelled from the spec: `inst_matches_field`, missing from the sources: "the
Instance's canonical identifier's field equals value (case-insensitive)". -/
def inst_matches_field (inst : graph_instance_t) (field : graph_ident_field_t)
    (field_value : String) : Bool :=
  strcasecmp (inst.select.get field) field_value == 0

/-! ## `graph.c` -/

/-- The function `graph_create`: the selector, when given, is cloned (a failed clone
leaves a null selector); everything else is zeroed. -/
def graph_create (selector : Option graph_ident_t) (malloc_ok clone_ok : Bool) :
    Option graph_config_t :=
  if !malloc_ok then none
  else
    some
      { select :=
          match selector with
          | some s => ident_clone s clone_ok
          | none => none
        title := none
        vertical_label := none
        show_zero := false
        defs := none
        instances := [] }

/-- The loop `for (i = 0; i < cfg->instances_num; i++) if (test (cfg->instances[i]))
return (cfg->instances[i]);` shared by the two lookups, run from position `i` on. -/
def find_loop (test : graph_instance_t → Bool) : List graph_instance_t → Nat → Option Nat
  | [], _ => none
  | inst :: rest, i => if test inst then some i else find_loop test rest (i + 1)

/-- The function `graph_inst_find_matching`; the result is the position of the instance
found. -/
def graph_inst_find_matching (cfg : Option graph_config_t) (ident : Option graph_ident_t) :
    Option Nat :=
  match cfg, ident with
  | some c, some id => find_loop (fun inst => inst_matches_ident inst id) c.instances 0
  | _, _ => none

/-- The allocations one call of `graph_add_file` may make, each with its outcome: the
`realloc` of the instance array, those of `inst_create` and those of `inst_add_file`. -/
structure alloc_t where
  realloc_ok : Bool
  inst_create_ok : Bool
  inst_add_file_ok : Bool
  deriving DecidableEq, Repr

/-- The statement `inst_add_file (inst, file)` for the instance at position `i`: the
status, and the instance array with that instance updated. `graph_add_file` only passes
positions inside the array (`graph_add_file_cases`), so the last branch is never taken. -/
def inst_add_file_at (instances : List graph_instance_t) (i : Nat) (file : graph_ident_t)
    (alloc_ok : Bool) : Int × List graph_instance_t :=
  match instances[i]? with
  | some inst =>
    ((inst_add_file inst file alloc_ok).1,
      instances.set i (inst_add_file inst file alloc_ok).2)
  | none => (EINVAL, instances)

/-- The function `graph_add_file`. -/
def graph_add_file (cfg : graph_config_t) (file : graph_ident_t) (a : alloc_t) :
    Int × graph_config_t :=
  match graph_inst_find_matching (some cfg) (some file) with
  | some i =>
    let r := inst_add_file_at cfg.instances i file a.inst_add_file_ok
    (r.1, { cfg with instances := r.2 })
  | none =>
    if !a.realloc_ok then (ENOMEM, cfg)
    else
      match inst_create cfg file a.inst_create_ok with
      | none => (ENOMEM, cfg)
      | some inst =>
        let r := inst_add_file_at (cfg.instances ++ [inst]) cfg.instances.length file
          a.inst_add_file_ok
        (r.1, { cfg with instances := r.2 })

/-- The function `graph_clear_instances`. -/
def graph_clear_instances (cfg : Option graph_config_t) : Int × Option graph_config_t :=
  match cfg with
  | none => (EINVAL, none)
  | some c => (0, some { c with instances := [] })

/-- The function `graph_matches_field`. -/
def graph_matches_field (cfg : Option graph_config_t) (field : graph_ident_field_t)
    (field_value : Option String) : Bool :=
  match cfg, field_value with
  | some c, some v =>
    match ident_get_field c.select field with
    | none => false
    | some selector_value =>
      if IS_ALL (some selector_value) || IS_ANY (some selector_value) then true
      else if strcasecmp selector_value v == 0 then true
      else false
  | _, _ => false

/-- The type `graph_inst_callback_t` of the visitors: called with the template, an
instance and the user data, a visitor returns its status and the user data as it leaves
them. -/
abbrev graph_inst_callback_t (σ : Type) : Type :=
  graph_config_t → graph_instance_t → σ → Int × σ

/-- The `for` loop of `graph_inst_search_field` over the instances still to visit. -/
def search_field_loop {σ : Type} (cfg : graph_config_t) (field : graph_ident_field_t)
    (field_value : String) (callback : graph_inst_callback_t σ)
    (need_check_instances : Bool) : List graph_instance_t → σ → Int × σ
  | [], user_data => (0, user_data)
  | inst :: rest, user_data =>
    if need_check_instances && !inst_matches_field inst field field_value then
      search_field_loop cfg field field_value callback need_check_instances rest user_data
    else
      let r := callback cfg inst user_data
      if r.1 != 0 then r
      else search_field_loop cfg field field_value callback need_check_instances rest r.2

/-- The function `graph_inst_search_field`. -/
def graph_inst_search_field {σ : Type} (cfg : Option graph_config_t)
    (field : graph_ident_field_t) (field_value : Option String)
    (callback : Option (graph_inst_callback_t σ)) (user_data : σ) : Int × σ :=
  match cfg, field_value, callback with
  | some c, some v, some cb =>
    if !graph_matches_field (some c) field (some v) then (0, user_data)
    else
      match ident_get_field c.select field with
      | none => (-1, user_data)
      | some selector_field =>
        search_field_loop c field v cb
          (IS_ALL (some selector_field) || IS_ANY (some selector_field)) c.instances user_data
  | _, _, _ => (EINVAL, user_data)

/-! ## Sequences of calls and sample inputs -/

/-- A call that changes the instances of a template. -/
inductive graph_call where
  | add_file (file : graph_ident_t) (a : alloc_t)
  | clear_instances
  deriving DecidableEq, Repr

/-- The template after one call. -/
def graph_call.run (cfg : graph_config_t) : graph_call → graph_config_t
  | graph_call.add_file file a => (graph_add_file cfg file a).2
  | graph_call.clear_instances => ((graph_clear_instances (some cfg)).2).getD cfg

/-- The template after a sequence of calls, made from left to right. -/
def run_calls (cfg : graph_config_t) (calls : List graph_call) : graph_config_t :=
  calls.foldl graph_call.run cfg

/-- The file list of the instance at position `i`; empty when there is no such instance. -/
def files_at (cfg : graph_config_t) (i : Nat) : List graph_ident_t :=
  match cfg.instances[i]? with
  | some inst => inst.files
  | none => []

/-- A template without instances and without display options. -/
def template_of (sel : graph_ident_t) : graph_config_t :=
  { select := some sel, title := none, vertical_label := none, show_zero := false,
    defs := none, instances := [] }

/-- Every allocation succeeds. -/
def alloc_all : alloc_t :=
  { realloc_ok := true, inst_create_ok := true, inst_add_file_ok := true }

/-- The array grows and the instance is built, then `inst_add_file` runs out of memory. -/
def alloc_until_add : alloc_t :=
  { realloc_ok := true, inst_create_ok := true, inst_add_file_ok := false }

/-- A selector with ANY as host. -/
def sel_any_host : graph_ident_t :=
  { host := "/any/", plugin := "cpu", plugin_instance := "", type := "cpu",
    type_instance := "" }

/-- A selector with ALL as host. -/
def sel_all_host : graph_ident_t :=
  { host := "/all/", plugin := "cpu", plugin_instance := "", type := "cpu",
    type_instance := "" }

/-- A selector of five literals. -/
def sel_literal : graph_ident_t :=
  { host := "a", plugin := "cpu", plugin_instance := "", type := "cpu",
    type_instance := "" }

/-- A file of the plugin `cpu` on the given host. -/
def cpu_file (host : String) : graph_ident_t :=
  { host := host, plugin := "cpu", plugin_instance := "", type := "cpu",
    type_instance := "" }

/-- A file of the plugin `mem` on the given host. -/
def mem_file (host : String) : graph_ident_t :=
  { host := host, plugin := "mem", plugin_instance := "", type := "cpu",
    type_instance := "" }

/-- A visitor that records the instances it is shown and returns 0. -/
def record_visit : graph_inst_callback_t (List graph_instance_t) :=
  fun _ inst seen => (0, seen ++ [inst])

/-! ## Titles, traversals, exact lookup and render arguments -/

/-- The bytes of a C string, those of its UTF-8 encoding; sizes and offsets in the code
are counted in bytes. -/
def c_bytes (s : String) : List UInt8 :=
  s.data.flatMap String.utf8EncodeChar

/-- The function `tolower` of `<ctype.h>` on a byte, in the C locale: the letters `A` to
`Z` (65 to 90) are moved to `a` to `z`, every other byte is left alone. -/
def tolower (b : UInt8) : UInt8 :=
  if 65 ≤ b.toNat ∧ b.toNat ≤ 90 then UInt8.ofNat (b.toNat + 32) else b

/-- Whether the needle stands at the very start of the haystack. -/
def starts_with : List UInt8 → List UInt8 → Bool
  | _, [] => true
  | [], _ :: _ => false
  | h :: hs, n :: ns => h == n && starts_with hs ns

/-- The loop of `strstr`: the offset of the first occurrence of the needle, the part of
the haystack still to search starting at offset `k`. -/
def strstr_loop (needle : List UInt8) : List UInt8 → Nat → Option Nat
  | [], k => if starts_with [] needle then some k else none
  | h :: hs, k =>
    if starts_with (h :: hs) needle then some k else strstr_loop needle hs (k + 1)

/-- The function `strstr` of `<string.h>`, on the bytes of the two strings: `none` is
`NULL`, `some k` the pointer `haystack + k`. -/
def strstr (haystack needle : List UInt8) : Option Nat :=
  strstr_loop needle haystack 0

/-- Modelled from the spec: `strtolower` of `common.h`, missing from the sources: it
"lowercases" the string in place, byte by byte with `tolower`. -/
def strtolower (str : List UInt8) : List UInt8 :=
  str.map tolower

/-- Modelled from the spec: `ident_to_string`, declared in `graph_ident.h` and defined
elsewhere: the "human-readable title (fields joined with separators, empty fields
elided)", allocated and returned; it fails only when its allocation fails, and there is
no string for a null identifier. The separator is taken to be `/`. -/
def ident_to_string (ident : Option graph_ident_t) (alloc_ok : Bool) : Option String :=
  match ident with
  | none => none
  | some i =>
    if alloc_ok then
      some (String.intercalate "/"
        ([i.host, i.plugin, i.plugin_instance, i.type, i.type_instance].filter
          (fun s => s != "")))
    else none

/-- Modelled from the spec: `inst_matches_string`, missing from the sources: "any of the
Instance's five canonical fields, or any underlying file identifier's fields, contains
term as a case-insensitive substring". -/
def inst_matches_string (_cfg : graph_config_t) (inst : graph_instance_t) (term : String) :
    Bool :=
  let field_has := fun (s : String) =>
    (strstr (strtolower (c_bytes s)) (strtolower (c_bytes term))).isSome
  let ident_has := fun (i : graph_ident_t) =>
    field_has i.host || field_has i.plugin || field_has i.plugin_instance
      || field_has i.type || field_has i.type_instance
  ident_has inst.select || inst.files.any ident_has

/-- Modelled from the spec: `array_append` of the argument array `str_array_t`, missing
from the sources: one more string at the end of the list. `graph_get_rrdargs` does not
look at its status. -/
def array_append (args : List String) (entry : String) : List String :=
  args ++ [entry]

/-- The function `graph_get_title`. The result is the status, the template (whose title
the call may have set) and the buffer as a C string: `strncpy` followed by
`buffer[buffer_size - 1] = 0` leaves the first `buffer_size - 1` bytes of the title.
`to_string_ok` says whether the allocation of `ident_to_string` succeeds. -/
def graph_get_title (cfg : Option graph_config_t) (buffer : Option (List UInt8))
    (buffer_size : Nat) (to_string_ok : Bool) :
    Int × Option graph_config_t × Option (List UInt8) :=
  match cfg, buffer with
  | some c, some b =>
    if buffer_size < 1 then (EINVAL, some c, some b)
    else
      let title :=
        match c.title with
        | none => ident_to_string c.select to_string_ok
        | some t => some t
      match title with
      | none => (ENOMEM, some c, some b)
      | some t =>
        (0, some { c with title := some t }, some ((c_bytes t).take (buffer_size - 1)))
  | _, _ => (EINVAL, cfg, buffer)

/-- The type `inst_callback_t` of the visitors of `graph_inst_foreach`: called with an
instance and the user data. -/
abbrev inst_callback_t (σ : Type) : Type :=
  graph_instance_t → σ → Int × σ

/-- The `for` loop of `graph_inst_foreach` over the instances still to visit. -/
def foreach_loop {σ : Type} (cb : inst_callback_t σ) : List graph_instance_t → σ → Int × σ
  | [], user_data => (0, user_data)
  | inst :: rest, user_data =>
    let r := cb inst user_data
    if r.1 != 0 then r else foreach_loop cb rest r.2

/-- The function `graph_inst_foreach`. -/
def graph_inst_foreach {σ : Type} (cfg : graph_config_t) (cb : inst_callback_t σ)
    (user_data : σ) : Int × σ :=
  foreach_loop cb cfg.instances user_data

/-- The function `graph_inst_find_exact`; the result is the position of the instance
found. -/
def graph_inst_find_exact (cfg : Option graph_config_t) (ident : Option graph_ident_t) :
    Option Nat :=
  match cfg, ident with
  | some c, some id => find_loop (fun inst => inst_compare_ident inst id == 0) c.instances 0
  | _, _ => none

/-- The first `for` loop of `graph_inst_search`, taken when the term is found in the
title: every instance is shown to the visitor. -/
def search_title_loop {σ : Type} (cfg : graph_config_t) (cb : graph_inst_callback_t σ) :
    List graph_instance_t → σ → Int × σ
  | [], user_data => (0, user_data)
  | inst :: rest, user_data =>
    let r := cb cfg inst user_data
    if r.1 != 0 then r else search_title_loop cfg cb rest r.2

/-- The second `for` loop of `graph_inst_search`: the instances that
`inst_matches_string` accepts are shown to the visitor. -/
def search_term_loop {σ : Type} (cfg : graph_config_t) (term : String)
    (cb : graph_inst_callback_t σ) : List graph_instance_t → σ → Int × σ
  | [], user_data => (0, user_data)
  | inst :: rest, user_data =>
    if inst_matches_string cfg inst term then
      let r := cb cfg inst user_data
      if r.1 != 0 then r else search_term_loop cfg term cb rest r.2
    else search_term_loop cfg term cb rest user_data

/-- The function `graph_inst_search`. The result is the status, the template (whose
title `graph_get_title` may have set) and the user data. The local buffer of 1024 bytes
starts out empty. When `graph_get_title` returns 0 there is a template, so
the branch without one is never taken. -/
def graph_inst_search {σ : Type} (cfg : Option graph_config_t) (term : String)
    (cb : graph_inst_callback_t σ) (user_data : σ) (to_string_ok : Bool) :
    Int × Option graph_config_t × σ :=
  let r := graph_get_title cfg (some []) 1024 to_string_ok
  if r.1 != 0 then (r.1, r.2.1, user_data)
  else
    match r.2.1 with
    | none => (EINVAL, none, user_data)
    | some c =>
      let buffer := strtolower (r.2.2.getD [])
      if (strstr buffer (c_bytes term)).isSome then
        let v := search_title_loop c cb c.instances user_data
        (v.1, some c, v.2)
      else
        let v := search_term_loop c term cb c.instances user_data
        (v.1, some c, v.2)

/-- The function `graph_get_rrdargs`. -/
def graph_get_rrdargs (cfg : Option graph_config_t) (inst : Option graph_instance_t)
    (args : Option (List String)) : Int × Option (List String) :=
  match cfg, inst, args with
  | some c, some _, some a =>
    let a1 :=
      match c.title with
      | some t => array_append (array_append a "-t") t
      | none => a
    let a2 :=
      match c.vertical_label with
      | some v => array_append (array_append a1 "-v") v
      | none => a1
    let a3 := if c.show_zero then array_append (array_append a2 "-l") "0" else a2
    (0, some a3)
  | _, _, _ => (EINVAL, args)

/-- The template after the files were added one by one, every allocation succeeding. -/
def add_files (cfg : graph_config_t) (files : List graph_ident_t) : graph_config_t :=
  files.foldl (fun c f => (graph_add_file c f alloc_all).2) cfg

/-- A call made on a template while it serves requests. -/
inductive template_call (σ : Type) where
  | add_file (file : graph_ident_t) (a : alloc_t)
  | get_title (buffer : Option (List UInt8)) (buffer_size : Nat) (to_string_ok : Bool)
  | inst_search (term : String) (cb : graph_inst_callback_t σ) (user_data : σ)
      (to_string_ok : Bool)
  | inst_search_field (field : graph_ident_field_t) (field_value : Option String)
      (callback : Option (graph_inst_callback_t σ)) (user_data : σ)

/-- The template after one such call; `graph_inst_search_field` only reads it. -/
def template_call.run {σ : Type} (cfg : graph_config_t) : template_call σ → graph_config_t
  | template_call.add_file file a => (graph_add_file cfg file a).2
  | template_call.get_title buffer buffer_size ok =>
    ((graph_get_title (some cfg) buffer buffer_size ok).2.1).getD cfg
  | template_call.inst_search term cb user_data ok =>
    ((graph_inst_search (some cfg) term cb user_data ok).2.1).getD cfg
  | template_call.inst_search_field _ _ _ _ => cfg

/-- The template after a sequence of such calls, made from left to right. -/
def run_template_calls {σ : Type} (cfg : graph_config_t) (calls : List (template_call σ)) :
    graph_config_t :=
  calls.foldl template_call.run cfg

/-- A selector with ANY as plugin instance and literals elsewhere. -/
def sel_any_plugin_instance : graph_ident_t :=
  { host := "", plugin := "cpu", plugin_instance := "/any/", type := "cpu",
    type_instance := "" }

/-- A file of the plugin `cpu` with the given plugin instance. -/
def cpu_instance_file (plugin_instance : String) : graph_ident_t :=
  { host := "", plugin := "cpu", plugin_instance := plugin_instance, type := "cpu",
    type_instance := "" }

/-- A visitor of `graph_inst_foreach` that records the instances it is shown and
returns 0. -/
def record_instance : inst_callback_t (List graph_instance_t) :=
  fun inst seen => (0, seen ++ [inst])

/-! ## Facts about the C library functions -/

theorem ENOMEM_ne_zero : ENOMEM ≠ 0 := by decide

theorem strcmp_loop_eq_zero_iff (a b : List Char) : strcmp_loop a b = 0 ↔ a = b := by
  induction a generalizing b with
  | nil => cases b <;> simp [strcmp_loop]
  | cons x xs ih =>
    cases b with
    | nil => simp [strcmp_loop]
    | cons y ys =>
      simp only [strcmp_loop]
      by_cases hxy : x = y
      · simp [hxy, ih]
      · simp only [hxy, if_false, List.cons.injEq, false_and, iff_false]
        split_ifs <;> decide

theorem strcmp_eq_zero_iff (a b : String) : strcmp a b = 0 ↔ a = b := by
  unfold strcmp
  rw [strcmp_loop_eq_zero_iff]
  constructor
  · intro h
    exact String.ext h
  · intro h
    rw [h]

theorem strcasecmp_loop_self (a : List Char) : strcasecmp_loop a a = 0 := by
  induction a with
  | nil => rfl
  | cons x xs ih => simp [strcasecmp_loop, ih]

theorem strcasecmp_self (a : String) : strcasecmp a a = 0 :=
  strcasecmp_loop_self a.data

theorem ident_compare_eq_zero_iff (i0 i1 : graph_ident_t) :
    ident_compare i0 i1 = 0 ↔ i0 = i1 := by
  cases i0 with
  | mk h p pi t ti =>
  cases i1 with
  | mk h' p' pi' t' ti' =>
  simp only [ident_compare, graph_ident_t.mk.injEq, bne_iff_ne, ne_eq]
  constructor
  · intro hc
    by_cases h1 : strcmp h h' = 0
    · by_cases h2 : strcmp p p' = 0
      · by_cases h3 : strcmp pi pi' = 0
        · by_cases h4 : strcmp t t' = 0
          · simp only [h1, h2, h3, h4, not_true_eq_false, if_false] at hc
            exact ⟨(strcmp_eq_zero_iff _ _).1 h1, (strcmp_eq_zero_iff _ _).1 h2,
              (strcmp_eq_zero_iff _ _).1 h3, (strcmp_eq_zero_iff _ _).1 h4,
              (strcmp_eq_zero_iff _ _).1 hc⟩
          · simp [h1, h2, h3, h4] at hc
        · simp [h1, h2, h3] at hc
      · simp [h1, h2] at hc
    · simp [h1] at hc
  · rintro ⟨rfl, rfl, rfl, rfl, rfl⟩
    simp [(strcmp_eq_zero_iff _ _).2 rfl]

/-! ## The lookup loop -/

theorem find_loop_eq_none_iff (test : graph_instance_t → Bool) (l : List graph_instance_t)
    (k : Nat) : find_loop test l k = none ↔ ∀ x ∈ l, test x = false := by
  induction l generalizing k with
  | nil => simp [find_loop]
  | cons x xs ih =>
    simp only [find_loop, List.mem_cons, forall_eq_or_imp]
    cases hx : test x <;> simp [ih]

theorem find_loop_eq_some (test : graph_instance_t → Bool) (l : List graph_instance_t)
    (k i : Nat) (h : find_loop test l k = some i) :
    ∃ j inst, i = k + j ∧ l[j]? = some inst ∧ test inst = true ∧
      ∀ j' x, j' < j → l[j']? = some x → test x = false := by
  induction l generalizing k with
  | nil => simp [find_loop] at h
  | cons y ys ih =>
    simp only [find_loop] at h
    cases hy : test y with
    | true =>
      simp only [hy, if_true, Option.some.injEq] at h
      exact ⟨0, y, by omega, by simp, hy, by intro j' x hj; omega⟩
    | false =>
      simp only [hy, Bool.false_eq_true, if_false] at h
      obtain ⟨j, inst, hi, hget, ht, hmin⟩ := ih (k + 1) h
      refine ⟨j + 1, inst, by omega, by simpa using hget, ht, ?_⟩
      intro j' x hj hx
      cases j' with
      | zero =>
        simp only [List.getElem?_cons_zero, Option.some.injEq] at hx
        rw [← hx]; exact hy
      | succ n =>
        simp only [List.getElem?_cons_succ] at hx
        exact hmin n x (by omega) hx

theorem graph_inst_find_matching_eq_none_iff (cfg : graph_config_t) (file : graph_ident_t) :
    graph_inst_find_matching (some cfg) (some file) = none ↔
      ∀ x ∈ cfg.instances, ident_matches x.select file = false := by
  simp only [graph_inst_find_matching, find_loop_eq_none_iff, inst_matches_ident]

theorem graph_inst_find_matching_eq_some (cfg : graph_config_t) (file : graph_ident_t)
    (i : Nat) (h : graph_inst_find_matching (some cfg) (some file) = some i) :
    ∃ inst, cfg.instances[i]? = some inst ∧ ident_matches inst.select file = true ∧
      ∀ j x, j < i → cfg.instances[j]? = some x → ident_matches x.select file = false := by
  simp only [graph_inst_find_matching] at h
  obtain ⟨j, inst, hi, hget, ht, hmin⟩ := find_loop_eq_some _ _ _ _ h
  have hij : i = j := by omega
  subst hij
  exact ⟨inst, hget, ht, hmin⟩

theorem inst_add_file_at_length (l : List graph_instance_t) (inst : graph_instance_t)
    (file : graph_ident_t) (ok : Bool) :
    inst_add_file_at (l ++ [inst]) l.length file ok =
      ((inst_add_file inst file ok).1, l ++ [(inst_add_file inst file ok).2]) := by
  simp [inst_add_file_at]

/-- The four ways through `graph_add_file`. -/
theorem graph_add_file_cases (cfg : graph_config_t) (file : graph_ident_t) (a : alloc_t) :
    (∃ i inst, graph_inst_find_matching (some cfg) (some file) = some i ∧
        cfg.instances[i]? = some inst ∧
        graph_add_file cfg file a = ((inst_add_file inst file a.inst_add_file_ok).1,
          { cfg with
            instances := cfg.instances.set i (inst_add_file inst file a.inst_add_file_ok).2 }))
    ∨ (graph_inst_find_matching (some cfg) (some file) = none ∧ a.realloc_ok = false ∧
        graph_add_file cfg file a = (ENOMEM, cfg))
    ∨ (graph_inst_find_matching (some cfg) (some file) = none ∧ a.realloc_ok = true ∧
        inst_create cfg file a.inst_create_ok = none ∧
        graph_add_file cfg file a = (ENOMEM, cfg))
    ∨ (∃ inst, graph_inst_find_matching (some cfg) (some file) = none ∧
        a.realloc_ok = true ∧ inst_create cfg file a.inst_create_ok = some inst ∧
        graph_add_file cfg file a = ((inst_add_file inst file a.inst_add_file_ok).1,
          { cfg with
            instances := cfg.instances ++ [(inst_add_file inst file a.inst_add_file_ok).2] })) := by
  cases hf : graph_inst_find_matching (some cfg) (some file) with
  | some i =>
    obtain ⟨inst, hget, -, -⟩ := graph_inst_find_matching_eq_some cfg file i hf
    refine Or.inl ⟨i, inst, rfl, hget, ?_⟩
    simp [graph_add_file, hf, inst_add_file_at, hget]
  | none =>
    cases hr : a.realloc_ok with
    | false =>
      refine Or.inr (Or.inl ⟨rfl, rfl, ?_⟩)
      simp [graph_add_file, hf, hr]
    | true =>
      cases hc : inst_create cfg file a.inst_create_ok with
      | none =>
        refine Or.inr (Or.inr (Or.inl ⟨rfl, rfl, rfl, ?_⟩))
        simp [graph_add_file, hf, hr, hc]
      | some inst =>
        refine Or.inr (Or.inr (Or.inr ⟨inst, rfl, rfl, rfl, ?_⟩))
        simp [graph_add_file, hf, hr, hc, inst_add_file_at_length]

/-! ## Identifiers field by field -/

theorem ident_matches_iff (s i : graph_ident_t) :
    ident_matches s i = true ↔ ∀ F, part_matches (s.get F) (i.get F) = true := by
  constructor
  · intro h F
    simp only [ident_matches, Bool.and_eq_true] at h
    obtain ⟨⟨⟨⟨h1, h2⟩, h3⟩, h4⟩, h5⟩ := h
    cases F <;> assumption
  · intro h
    simp only [ident_matches, Bool.and_eq_true]
    exact ⟨⟨⟨⟨h GIF_HOST, h GIF_PLUGIN⟩, h GIF_PLUGIN_INSTANCE⟩, h GIF_TYPE⟩,
      h GIF_TYPE_INSTANCE⟩

theorem ident_copy_with_selector_get (sel ident c : graph_ident_t) (flags : Nat)
    (ok : Bool) (h : ident_copy_with_selector (some sel) ident flags ok = some c)
    (F : graph_ident_field_t) :
    c.get F = part_copy_with_selector (sel.get F) (ident.get F) flags := by
  cases ok with
  | false => simp [ident_copy_with_selector] at h
  | true =>
    simp only [ident_copy_with_selector, if_true, Option.some.injEq] at h
    subst h
    cases F <;> rfl

theorem inst_create_eq_some (cfg : graph_config_t) (file : graph_ident_t) (ok : Bool)
    (inst : graph_instance_t) (h : inst_create cfg file ok = some inst) :
    ident_copy_with_selector cfg.select file
        (IDENT_FLAG_REPLACE_ALL ||| IDENT_FLAG_REPLACE_ANY) ok = some inst.select ∧
      inst.files = [] := by
  unfold inst_create at h
  cases hc : ident_copy_with_selector cfg.select file
      (IDENT_FLAG_REPLACE_ALL ||| IDENT_FLAG_REPLACE_ANY) ok with
  | none => simp [hc] at h
  | some c =>
    simp only [hc, Option.some.injEq] at h
    subst h
    exact ⟨rfl, rfl⟩

theorem part_copy_with_selector_matches (s v : String) (h : part_matches s v = true) :
    part_matches
      (part_copy_with_selector s v (IDENT_FLAG_REPLACE_ALL ||| IDENT_FLAG_REPLACE_ANY)) v
      = true := by
  unfold part_copy_with_selector
  have hany : ((IDENT_FLAG_REPLACE_ALL ||| IDENT_FLAG_REPLACE_ANY) &&&
      IDENT_FLAG_REPLACE_ANY != 0) = true := by decide
  have hall : ((IDENT_FLAG_REPLACE_ALL ||| IDENT_FLAG_REPLACE_ANY) &&&
      IDENT_FLAG_REPLACE_ALL != 0) = true := by decide
  rw [hany, hall]
  simp only [if_true]
  cases h1 : IS_ANY (some s) with
  | true =>
    simp only [if_true]
    simp [part_matches, strcasecmp_self]
  | false =>
    cases h2 : IS_ALL (some s) with
    | true =>
      simp only [Bool.false_eq_true, if_false, if_true]
      have : IS_ALL (some ALL_TOKEN) = true := by decide
      simp [part_matches, this]
    | false =>
      simpa using h

/-- The canonical identifier built for a file that the selector matches, matches that
file. -/
theorem ident_copy_with_selector_matches (sel file c : graph_ident_t) (ok : Bool)
    (hm : ident_matches sel file = true)
    (hc : ident_copy_with_selector (some sel) file
      (IDENT_FLAG_REPLACE_ALL ||| IDENT_FLAG_REPLACE_ANY) ok = some c) :
    ident_matches c file = true := by
  rw [ident_matches_iff] at hm ⊢
  intro F
  rw [ident_copy_with_selector_get sel file c _ ok hc F]
  exact part_copy_with_selector_matches _ _ (hm F)

/-! ## Which instance `graph_add_file` takes -/

/-- C1, as stated, fails: after `cpu_file "A"` went into a template whose selector has
ANY as host, the canonical identifier for `cpu_file "a"` compares unequal to that of the
only instance, and still `graph_add_file` reuses that instance instead of appending one,
because the lookup matches case-insensitively. -/
theorem graph_add_file_reuses_without_equal_identifier :
    ident_copy_with_selector (some sel_any_host) (cpu_file "a")
        (IDENT_FLAG_REPLACE_ALL ||| IDENT_FLAG_REPLACE_ANY) true = some (cpu_file "a") ∧
      (graph_add_file (template_of sel_any_host) (cpu_file "A") alloc_all).2.instances
        = [{ select := cpu_file "A", files := [cpu_file "A"] }] ∧
      ident_compare (cpu_file "A") (cpu_file "a") ≠ 0 ∧
      (graph_add_file
          (graph_add_file (template_of sel_any_host) (cpu_file "A") alloc_all).2
          (cpu_file "a") alloc_all).2.instances
        = [{ select := cpu_file "A", files := [cpu_file "A", cpu_file "a"] }] := by
  decide

/-- C1, amended: with a selector and with the array and the instance allocated,
`graph_add_file` reuses an existing instance exactly when the canonical identifier of
some instance matches the file (`ident_matches`: wildcard-aware, case-insensitive); the
instance reused is the first such one in insertion order; otherwise a new instance with
the canonical identifier `c = withSelector(selector, file, ALL and ANY)` is appended. -/
theorem graph_add_file_reuses_first_match (cfg : graph_config_t)
    (sel file c : graph_ident_t) (a : alloc_t)
    (hsel : cfg.select = some sel)
    (hc : ident_copy_with_selector (some sel) file
      (IDENT_FLAG_REPLACE_ALL ||| IDENT_FLAG_REPLACE_ANY) true = some c)
    (hr : a.realloc_ok = true) (hi : a.inst_create_ok = true) :
    ((∃ inst ∈ cfg.instances, ident_matches inst.select file = true) ↔
        (graph_add_file cfg file a).2.instances.length = cfg.instances.length) ∧
      (∀ i inst, cfg.instances[i]? = some inst → ident_matches inst.select file = true →
        (∀ j x, j < i → cfg.instances[j]? = some x → ident_matches x.select file = false) →
        (graph_add_file cfg file a).2.instances =
          cfg.instances.set i (inst_add_file inst file a.inst_add_file_ok).2) ∧
      ((∀ inst ∈ cfg.instances, ident_matches inst.select file = false) →
        (graph_add_file cfg file a).2.instances =
          cfg.instances ++
            [(inst_add_file { select := c, files := [] } file a.inst_add_file_ok).2]) := by
  have hcreate : inst_create cfg file a.inst_create_ok = some { select := c, files := [] } := by
    simp [inst_create, hsel, hi, hc]
  rcases graph_add_file_cases cfg file a with
    ⟨i0, inst0, hf, hget, heq⟩ | ⟨hf, hr', -⟩ | ⟨hf, -, hc', -⟩ | ⟨inst1, hf, -, hc', heq⟩
  · obtain ⟨inst0', hget', hm0, hmin0⟩ := graph_inst_find_matching_eq_some cfg file i0 hf
    rw [hget] at hget'
    cases hget'
    refine ⟨?_, ?_, ?_⟩
    · constructor
      · intro _
        rw [heq]
        simp
      · intro _
        exact ⟨inst0, List.getElem?_mem hget, hm0⟩
    · intro i inst hgi hmi hmini
      have hii : i = i0 := by
        rcases Nat.lt_trichotomy i i0 with hlt | heq' | hgt
        · have := hmin0 i inst hlt hgi
          rw [this] at hmi
          cases hmi
        · exact heq'
        · have := hmini i0 inst0 hgt hget
          rw [this] at hm0
          cases hm0
      subst hii
      rw [hget] at hgi
      cases hgi
      rw [heq]
    · intro hnone
      have := hnone inst0 (List.getElem?_mem hget)
      rw [this] at hm0
      cases hm0
  · rw [hr] at hr'
    cases hr'
  · rw [hcreate] at hc'
    cases hc'
  · rw [hcreate] at hc'
    cases hc'
    have hnone := (graph_inst_find_matching_eq_none_iff cfg file).1 hf
    refine ⟨?_, ?_, ?_⟩
    · constructor
      · rintro ⟨inst, hmem, hm⟩
        rw [hnone inst hmem] at hm
        cases hm
      · intro hlen
        rw [heq] at hlen
        simp at hlen
    · intro i inst hgi hmi _
      rw [hnone inst (List.getElem?_mem hgi)] at hmi
      cases hmi
    · intro _
      rw [heq]

/-- C1, amended, at work: the second file of the counterexample is added to the first
instance, the first one whose canonical identifier matches it. -/
theorem graph_add_file_reuses_first_match_witness :
    ((∃ inst ∈ (graph_add_file (template_of sel_any_host) (cpu_file "A")
          alloc_all).2.instances, ident_matches inst.select (cpu_file "a") = true) ↔
      (graph_add_file
          (graph_add_file (template_of sel_any_host) (cpu_file "A") alloc_all).2
          (cpu_file "a") alloc_all).2.instances.length =
        (graph_add_file (template_of sel_any_host) (cpu_file "A")
          alloc_all).2.instances.length) :=
  (graph_add_file_reuses_first_match
    (graph_add_file (template_of sel_any_host) (cpu_file "A") alloc_all).2
    sel_any_host (cpu_file "a") (cpu_file "a") alloc_all (by decide) (by decide)
    (by decide) (by decide)).1

/-! ## The two wildcards -/

/-- The first file added to a template without instances, when the call succeeds:
one instance, with the canonical identifier built from the selector, holding that file. -/
theorem graph_add_file_first (cfg : graph_config_t) (sel file : graph_ident_t) (a : alloc_t)
    (hsel : cfg.select = some sel) (hempty : cfg.instances = [])
    (hs : (graph_add_file cfg file a).1 = 0) :
    ∃ c, ident_copy_with_selector (some sel) file
        (IDENT_FLAG_REPLACE_ALL ||| IDENT_FLAG_REPLACE_ANY) a.inst_create_ok = some c ∧
      (graph_add_file cfg file a).2 =
        { cfg with instances := [{ select := c, files := [file] }] } := by
  rcases graph_add_file_cases cfg file a with
    ⟨i0, inst0, -, hget, -⟩ | ⟨-, -, heq⟩ | ⟨-, -, -, heq⟩ | ⟨inst1, -, -, hc, heq⟩
  · simp [hempty] at hget
  · rw [heq] at hs
    exact absurd hs ENOMEM_ne_zero
  · rw [heq] at hs
    exact absurd hs ENOMEM_ne_zero
  · obtain ⟨hcopy, hfiles⟩ := inst_create_eq_some cfg file _ inst1 hc
    rw [hsel] at hcopy
    refine ⟨inst1.select, hcopy, ?_⟩
    rw [heq] at hs ⊢
    cases hok : a.inst_add_file_ok with
    | false =>
      simp only [hok, inst_add_file, Bool.false_eq_true, if_false] at hs
      exact absurd hs ENOMEM_ne_zero
    | true =>
      simp [inst_add_file, hempty, hfiles]

/-- C2, as stated, fails: the hosts `A` and `a` differ, the selector has ANY as host,
and the two files end up in one instance, since the lookup ignores case. -/
theorem graph_add_file_any_one_instance_when_case_differs :
    IS_ANY (some (sel_any_host.get GIF_HOST)) = true ∧
      (cpu_file "A").get GIF_HOST ≠ (cpu_file "a").get GIF_HOST ∧
      (∀ G, G ≠ GIF_HOST → (cpu_file "A").get G = (cpu_file "a").get G) ∧
      (graph_add_file (template_of sel_any_host) (cpu_file "A") alloc_all).1 = 0 ∧
      (graph_add_file
          (graph_add_file (template_of sel_any_host) (cpu_file "A") alloc_all).2
          (cpu_file "a") alloc_all).1 = 0 ∧
      (graph_add_file
          (graph_add_file (template_of sel_any_host) (cpu_file "A") alloc_all).2
          (cpu_file "a") alloc_all).2.instances.length = 1 := by
  decide

/-- C2, amended: when the selector holds ANY in field `F`, and two files agree outside
`F`, the first holds no wildcard token in `F`, and their values in `F` differ even when
case is ignored, then adding the first and then the second to a template without
instances yields exactly two instances; their canonical identifiers hold the values of
the respective file in `F` and agree in the other four fields. -/
theorem graph_add_file_any_two_instances (cfg : graph_config_t)
    (sel f1 f2 : graph_ident_t) (F : graph_ident_field_t) (a1 a2 : alloc_t)
    (hsel : cfg.select = some sel) (hempty : cfg.instances = [])
    (hany : IS_ANY (some (sel.get F)) = true)
    (hc1 : IS_ANY (some (f1.get F)) = false) (hc2 : IS_ALL (some (f1.get F)) = false)
    (hdiff : strcasecmp (f1.get F) (f2.get F) ≠ 0)
    (hsame : ∀ G, G ≠ F → f1.get G = f2.get G)
    (hs1 : (graph_add_file cfg f1 a1).1 = 0)
    (hs2 : (graph_add_file (graph_add_file cfg f1 a1).2 f2 a2).1 = 0) :
    ∃ i1 i2, (graph_add_file (graph_add_file cfg f1 a1).2 f2 a2).2.instances = [i1, i2] ∧
      i1.select.get F = f1.get F ∧ i2.select.get F = f2.get F ∧
      ∀ G, G ≠ F → i1.select.get G = i2.select.get G := by
  obtain ⟨c1, hcopy1, hres1⟩ := graph_add_file_first cfg sel f1 a1 hsel hempty hs1
  have hflag : ((IDENT_FLAG_REPLACE_ALL ||| IDENT_FLAG_REPLACE_ANY) &&&
      IDENT_FLAG_REPLACE_ANY != 0) = true := by decide
  have hc1F : c1.get F = f1.get F := by
    rw [ident_copy_with_selector_get sel f1 c1 _ _ hcopy1 F]
    simp [part_copy_with_selector, hany, hflag]
  have hnomatch : ident_matches c1 f2 = false := by
    cases hm : ident_matches c1 f2 with
    | false => rfl
    | true =>
      have := (ident_matches_iff c1 f2).1 hm F
      rw [hc1F] at this
      simp [part_matches, hc1, hc2, hdiff] at this
  rw [hres1] at hs2 ⊢
  rcases graph_add_file_cases
      { cfg with instances := [{ select := c1, files := [f1] }] } f2 a2 with
    ⟨i0, inst0, hf, -, -⟩ | ⟨-, -, heq⟩ | ⟨-, -, -, heq⟩ | ⟨inst2, -, -, hc, heq⟩
  · obtain ⟨x, hget, hm, -⟩ := graph_inst_find_matching_eq_some _ f2 i0 hf
    have hx := List.getElem?_mem hget
    simp only [List.mem_singleton] at hx
    subst hx
    rw [hnomatch] at hm
    cases hm
  · rw [heq] at hs2
    exact absurd hs2 ENOMEM_ne_zero
  · rw [heq] at hs2
    exact absurd hs2 ENOMEM_ne_zero
  · obtain ⟨hcopy2, -⟩ := inst_create_eq_some _ f2 _ inst2 hc
    simp only [hsel] at hcopy2
    rw [heq]
    refine ⟨{ select := c1, files := [f1] }, (inst_add_file inst2 f2 a2.inst_add_file_ok).2,
      by simp, hc1F, ?_, ?_⟩
    · have hs : (inst_add_file inst2 f2 a2.inst_add_file_ok).2.select = inst2.select := by
        unfold inst_add_file
        split_ifs <;> rfl
      rw [hs, ident_copy_with_selector_get sel f2 inst2.select _ _ hcopy2 F]
      simp [part_copy_with_selector, hany, hflag]
    · intro G hG
      have hs : (inst_add_file inst2 f2 a2.inst_add_file_ok).2.select = inst2.select := by
        unfold inst_add_file
        split_ifs <;> rfl
      rw [hs, ident_copy_with_selector_get sel f2 inst2.select _ _ hcopy2 G]
      show c1.get G = _
      rw [ident_copy_with_selector_get sel f1 c1 _ _ hcopy1 G, hsame G hG]

/-- C2, amended, at work: the hosts `a` and `b` give two instances. -/
theorem graph_add_file_any_two_instances_witness :
    ∃ i1 i2,
      (graph_add_file
          (graph_add_file (template_of sel_any_host) (cpu_file "a") alloc_all).2
          (cpu_file "b") alloc_all).2.instances = [i1, i2] ∧
      i1.select.get GIF_HOST = (cpu_file "a").get GIF_HOST ∧
      i2.select.get GIF_HOST = (cpu_file "b").get GIF_HOST ∧
      ∀ G, G ≠ GIF_HOST → i1.select.get G = i2.select.get G :=
  graph_add_file_any_two_instances (template_of sel_any_host) sel_any_host
    (cpu_file "a") (cpu_file "b") GIF_HOST alloc_all alloc_all rfl rfl
    (by decide) (by decide) (by decide) (by decide) (by decide) (by decide) (by decide)

theorem strcasecmp_loop_eq_zero_iff (a b : List Char) :
    strcasecmp_loop a b = 0 ↔ a.map Char.toLower = b.map Char.toLower := by
  induction a generalizing b with
  | nil => cases b <;> simp [strcasecmp_loop]
  | cons x xs ih =>
    cases b with
    | nil => simp [strcasecmp_loop]
    | cons y ys =>
      simp only [strcasecmp_loop, List.map_cons, List.cons.injEq]
      by_cases hxy : x.toLower = y.toLower
      · simp [hxy, ih]
      · simp only [hxy, if_false, false_and, iff_false]
        split_ifs <;> decide

/-- No string is both wildcard tokens. -/
theorem IS_ANY_eq_false_of_IS_ALL (s : String) (h : IS_ALL (some s) = true) :
    IS_ANY (some s) = false := by
  cases hany : IS_ANY (some s) with
  | false => rfl
  | true =>
    exfalso
    simp only [IS_ANY, IS_ALL, beq_iff_eq, strcasecmp, strcasecmp_loop_eq_zero_iff] at hany h
    rw [← h] at hany
    exact absurd hany (by decide)

/-- C3, as stated, fails: two `mem` files that differ only in the host, added to a
template whose selector has ALL as host and the literal `cpu` as plugin, give two
instances, because the canonical identifier of the first does not match the second. -/
theorem graph_add_file_all_two_instances_when_unmatched :
    IS_ALL (some (sel_all_host.get GIF_HOST)) = true ∧
      (mem_file "a").get GIF_HOST ≠ (mem_file "b").get GIF_HOST ∧
      (∀ G, G ≠ GIF_HOST → (mem_file "a").get G = (mem_file "b").get G) ∧
      (graph_add_file (template_of sel_all_host) (mem_file "a") alloc_all).1 = 0 ∧
      (graph_add_file
          (graph_add_file (template_of sel_all_host) (mem_file "a") alloc_all).2
          (mem_file "b") alloc_all).1 = 0 ∧
      (graph_add_file
          (graph_add_file (template_of sel_all_host) (mem_file "a") alloc_all).2
          (mem_file "b") alloc_all).2.instances.length = 2 := by
  decide

/-- C3, amended: when the selector holds ALL in field `F` and matches the first of two
files that agree outside `F`, then adding the first and then the second to a template
without instances yields exactly one instance; its canonical identifier holds the ALL
token in `F` and its file list is the two files. -/
theorem graph_add_file_all_one_instance (cfg : graph_config_t)
    (sel f1 f2 : graph_ident_t) (F : graph_ident_field_t) (a1 a2 : alloc_t)
    (hsel : cfg.select = some sel) (hempty : cfg.instances = [])
    (hall : IS_ALL (some (sel.get F)) = true)
    (hm : ident_matches sel f1 = true)
    (hsame : ∀ G, G ≠ F → f1.get G = f2.get G)
    (hs1 : (graph_add_file cfg f1 a1).1 = 0)
    (hs2 : (graph_add_file (graph_add_file cfg f1 a1).2 f2 a2).1 = 0) :
    ∃ inst, (graph_add_file (graph_add_file cfg f1 a1).2 f2 a2).2.instances = [inst] ∧
      inst.select.get F = ALL_TOKEN ∧ IS_ALL (some (inst.select.get F)) = true ∧
      inst.files = [f1, f2] := by
  obtain ⟨c1, hcopy1, hres1⟩ := graph_add_file_first cfg sel f1 a1 hsel hempty hs1
  have hflag : ((IDENT_FLAG_REPLACE_ALL ||| IDENT_FLAG_REPLACE_ANY) &&&
      IDENT_FLAG_REPLACE_ALL != 0) = true := by decide
  have hnotany : IS_ANY (some (sel.get F)) = false := IS_ANY_eq_false_of_IS_ALL _ hall
  have hc1F : c1.get F = ALL_TOKEN := by
    rw [ident_copy_with_selector_get sel f1 c1 _ _ hcopy1 F]
    simp [part_copy_with_selector, hall, hnotany, hflag]
  have hmatch : ident_matches c1 f2 = true := by
    rw [ident_matches_iff]
    intro G
    by_cases hG : G = F
    · subst hG
      rw [hc1F]
      have : IS_ALL (some ALL_TOKEN) = true := by decide
      simp [part_matches, this]
    · rw [ident_copy_with_selector_get sel f1 c1 _ _ hcopy1 G, ← hsame G hG]
      exact part_copy_with_selector_matches _ _ ((ident_matches_iff sel f1).1 hm G)
  rw [hres1] at hs2 ⊢
  rcases graph_add_file_cases
      { cfg with instances := [{ select := c1, files := [f1] }] } f2 a2 with
    ⟨i0, inst0, hf, hget, heq⟩ | ⟨hf, -, -⟩ | ⟨hf, -, -, -⟩ | ⟨inst2, hf, -, -, -⟩
  · have hx := List.getElem?_mem hget
    simp only [List.mem_singleton] at hx
    subst hx
    have hi0 : i0 = 0 := by
      cases i0 with
      | zero => rfl
      | succ n => simp at hget
    subst hi0
    rw [heq] at hs2 ⊢
    cases hok : a2.inst_add_file_ok with
    | false =>
      simp only [hok, inst_add_file, Bool.false_eq_true, if_false] at hs2
      exact absurd hs2 ENOMEM_ne_zero
    | true =>
      refine ⟨{ select := c1, files := [f1, f2] }, by simp [inst_add_file], hc1F, ?_, rfl⟩
      show IS_ALL (some (c1.get F)) = true
      rw [hc1F]
      decide
  all_goals
    have hnone := (graph_inst_find_matching_eq_none_iff _ f2).1 hf
      { select := c1, files := [f1] } (by simp)
    rw [hmatch] at hnone
    cases hnone

/-- C3, amended, at work: the `cpu` files of the hosts `a` and `b` give one instance. -/
theorem graph_add_file_all_one_instance_witness :
    ∃ inst,
      (graph_add_file
          (graph_add_file (template_of sel_all_host) (cpu_file "a") alloc_all).2
          (cpu_file "b") alloc_all).2.instances = [inst] ∧
      inst.select.get GIF_HOST = ALL_TOKEN ∧
      IS_ALL (some (inst.select.get GIF_HOST)) = true ∧
      inst.files = [cpu_file "a", cpu_file "b"] :=
  graph_add_file_all_one_instance (template_of sel_all_host) sel_all_host
    (cpu_file "a") (cpu_file "b") GIF_HOST alloc_all alloc_all rfl rfl
    (by decide) (by decide) (by decide) (by decide) (by decide)

/-! ## What `graph_add_file` does to the instance array -/

theorem inst_add_file_select (inst : graph_instance_t) (file : graph_ident_t) (ok : Bool) :
    (inst_add_file inst file ok).2.select = inst.select := by
  unfold inst_add_file
  split_ifs <;> rfl

theorem inst_add_file_files (inst : graph_instance_t) (file : graph_ident_t) (ok : Bool) :
    (inst_add_file inst file ok).2.files = if ok then inst.files ++ [file] else inst.files := by
  unfold inst_add_file
  split_ifs <;> rfl

theorem inst_add_file_status (inst : graph_instance_t) (file : graph_ident_t) (ok : Bool) :
    (inst_add_file inst file ok).1 = 0 ↔ ok = true := by
  unfold inst_add_file
  cases ok
  · simp [ENOMEM]
  · simp

theorem map_select_set (l : List graph_instance_t) (i : Nat) (inst x : graph_instance_t)
    (hget : l[i]? = some inst) (hx : x.select = inst.select) :
    (l.set i x).map (fun y => y.select) = l.map (fun y => y.select) := by
  induction l generalizing i with
  | nil => simp
  | cons y ys ih =>
    cases i with
    | zero =>
      simp only [List.getElem?_cons_zero, Option.some.injEq] at hget
      subst hget
      simp [hx]
    | succ n =>
      simp only [List.getElem?_cons_succ] at hget
      simp [ih n hget]

/-- The template fields other than the instances are left alone. -/
theorem graph_add_file_select (cfg : graph_config_t) (file : graph_ident_t) (a : alloc_t) :
    (graph_add_file cfg file a).2.select = cfg.select := by
  rcases graph_add_file_cases cfg file a with
    ⟨i0, inst0, -, -, heq⟩ | ⟨-, -, heq⟩ | ⟨-, -, -, heq⟩ | ⟨inst1, -, -, -, heq⟩ <;>
  rw [heq]

/-- The canonical identifiers after a call: those before it, or those before it followed
by the identifier of an instance created because no instance matched the file. -/
theorem graph_add_file_map_select (cfg : graph_config_t) (file : graph_ident_t)
    (a : alloc_t) :
    (graph_add_file cfg file a).2.instances.map (fun y => y.select)
        = cfg.instances.map (fun y => y.select) ∨
      ∃ c, (∀ x ∈ cfg.instances, ident_matches x.select file = false) ∧
        ident_copy_with_selector cfg.select file
          (IDENT_FLAG_REPLACE_ALL ||| IDENT_FLAG_REPLACE_ANY) a.inst_create_ok = some c ∧
        (graph_add_file cfg file a).2.instances.map (fun y => y.select)
          = cfg.instances.map (fun y => y.select) ++ [c] := by
  rcases graph_add_file_cases cfg file a with
    ⟨i0, inst0, -, hget, heq⟩ | ⟨-, -, heq⟩ | ⟨-, -, -, heq⟩ | ⟨inst1, hf, -, hc, heq⟩
  · left
    rw [heq]
    exact map_select_set _ _ inst0 _ hget (inst_add_file_select _ _ _)
  · left; rw [heq]
  · left; rw [heq]
  · right
    refine ⟨inst1.select, (graph_inst_find_matching_eq_none_iff cfg file).1 hf,
      (inst_create_eq_some cfg file _ inst1 hc).1, ?_⟩
    rw [heq]
    simp [inst_add_file_select]

theorem graph_add_file_length_of_match (cfg : graph_config_t) (file : graph_ident_t)
    (a : alloc_t) (h : ∃ inst ∈ cfg.instances, ident_matches inst.select file = true) :
    (graph_add_file cfg file a).2.instances.length = cfg.instances.length := by
  obtain ⟨inst, hmem, hm⟩ := h
  rcases graph_add_file_cases cfg file a with
    ⟨i0, inst0, -, -, heq⟩ | ⟨hf, -, -⟩ | ⟨hf, -, -, -⟩ | ⟨inst1, hf, -, -, -⟩
  · rw [heq]
    simp
  all_goals
    have := (graph_inst_find_matching_eq_none_iff cfg file).1 hf inst hmem
    rw [this] at hm
    cases hm

/-- C4, as stated, fails: a `mem` file goes into a template whose selector names the
plugin `cpu`; the call succeeds, and the same file added again gets a second instance,
since the canonical identifier of the first does not match it. -/
theorem graph_add_file_twice_two_instances_when_unmatched :
    (graph_add_file (template_of sel_literal) (mem_file "a") alloc_all).1 = 0 ∧
      (graph_add_file (template_of sel_literal) (mem_file "a")
        alloc_all).2.instances.length = 1 ∧
      (graph_add_file
          (graph_add_file (template_of sel_literal) (mem_file "a") alloc_all).2
          (mem_file "a") alloc_all).2.instances.length = 2 := by
  decide

/-- C4, amended: when the selector of the template matches the file (`ident_matches`)
and `graph_add_file` succeeds, a second call with the same file creates no instance: the
number of instances after the second call is the number after the first. -/
theorem graph_add_file_twice_same_count (cfg : graph_config_t) (sel file : graph_ident_t)
    (a1 a2 : alloc_t) (hsel : cfg.select = some sel)
    (hm : ident_matches sel file = true)
    (hs : (graph_add_file cfg file a1).1 = 0) :
    (graph_add_file (graph_add_file cfg file a1).2 file a2).2.instances.length =
      (graph_add_file cfg file a1).2.instances.length := by
  apply graph_add_file_length_of_match
  rcases graph_add_file_cases cfg file a1 with
    ⟨i0, inst0, hf, hget, heq⟩ | ⟨-, -, heq⟩ | ⟨-, -, -, heq⟩ | ⟨inst1, -, -, hc, heq⟩
  · obtain ⟨x, hget', hm0, -⟩ := graph_inst_find_matching_eq_some cfg file i0 hf
    rw [hget] at hget'
    cases hget'
    refine ⟨(inst_add_file inst0 file a1.inst_add_file_ok).2, ?_, ?_⟩
    · rw [heq]
      apply List.getElem?_mem (n := i0)
      have hlt : i0 < cfg.instances.length := by
        rcases Nat.lt_or_ge i0 cfg.instances.length with h | h
        · exact h
        · rw [List.getElem?_eq_none h] at hget
          cases hget
      simp [hlt]
    · rw [inst_add_file_select]
      exact hm0
  · rw [heq] at hs
    exact absurd hs ENOMEM_ne_zero
  · rw [heq] at hs
    exact absurd hs ENOMEM_ne_zero
  · obtain ⟨hcopy, -⟩ := inst_create_eq_some cfg file _ inst1 hc
    rw [hsel] at hcopy
    refine ⟨(inst_add_file inst1 file a1.inst_add_file_ok).2, ?_, ?_⟩
    · rw [heq]
      simp
    · rw [inst_add_file_select]
      exact ident_copy_with_selector_matches sel file _ _ hm hcopy

/-- C4, amended, at work: a `cpu` file added twice under a selector with ANY as host. -/
theorem graph_add_file_twice_same_count_witness :
    (graph_add_file
        (graph_add_file (template_of sel_any_host) (cpu_file "a") alloc_all).2
        (cpu_file "a") alloc_all).2.instances.length =
      (graph_add_file (template_of sel_any_host) (cpu_file "a")
        alloc_all).2.instances.length :=
  graph_add_file_twice_same_count (template_of sel_any_host) sel_any_host (cpu_file "a")
    alloc_all alloc_all rfl (by decide) (by decide)

/-! ## Instances of a template stay distinct -/

/-- C5, as stated, fails: a `mem` file added twice to a fresh template whose selector
names the plugin `cpu` leaves two instances, at positions 0 and 1, whose canonical
identifiers compare equal. -/
theorem run_calls_duplicate_when_unmatched :
    graph_create (some sel_literal) true true = some (template_of sel_literal) ∧
      ∃ x y : graph_instance_t,
        (run_calls (template_of sel_literal)
          [graph_call.add_file (mem_file "a") alloc_all,
            graph_call.add_file (mem_file "a") alloc_all]).instances[0]? = some x ∧
        (run_calls (template_of sel_literal)
          [graph_call.add_file (mem_file "a") alloc_all,
            graph_call.add_file (mem_file "a") alloc_all]).instances[1]? = some y ∧
        ident_compare x.select y.select = 0 := by
  refine ⟨by decide, { select := sel_literal, files := [mem_file "a"] },
    { select := sel_literal, files := [mem_file "a"] }, by decide, by decide, by decide⟩

theorem graph_call_run_select (cfg : graph_config_t) (call : graph_call) :
    (call.run cfg).select = cfg.select := by
  cases call with
  | add_file file a => exact graph_add_file_select cfg file a
  | clear_instances => rfl

/-- One call keeps the canonical identifiers free of duplicates, when the file it adds
is one the selector matches. -/
theorem graph_call_run_nodup (cfg : graph_config_t) (call : graph_call)
    (hfile : ∀ file a sel, call = graph_call.add_file file a → cfg.select = some sel →
      ident_matches sel file = true)
    (hnd : (cfg.instances.map (fun y => y.select)).Nodup) :
    ((call.run cfg).instances.map (fun y => y.select)).Nodup := by
  cases call with
  | clear_instances => simp [graph_call.run, graph_clear_instances]
  | add_file file a =>
    simp only [graph_call.run]
    rcases graph_add_file_map_select cfg file a with heq | ⟨c, hnone, hcopy, heq⟩
    · rw [heq]
      exact hnd
    · rw [heq]
      cases hsel : cfg.select with
      | none => simp [hsel, ident_copy_with_selector] at hcopy
      | some sel =>
        rw [hsel] at hcopy
        have hmc : ident_matches c file = true :=
          ident_copy_with_selector_matches sel file c _ (hfile file a sel rfl hsel) hcopy
        rw [List.nodup_append]
        refine ⟨hnd, List.nodup_singleton c, ?_⟩
        intro d hd hd'
        simp only [List.mem_singleton] at hd'
        subst hd'
        simp only [List.mem_map] at hd
        obtain ⟨x, hx, hxd⟩ := hd
        have := hnone x hx
        rw [hxd, hmc] at this
        cases this

theorem run_calls_nodup (calls : List graph_call) (cfg : graph_config_t)
    (hfiles : ∀ file a sel, graph_call.add_file file a ∈ calls → cfg.select = some sel →
      ident_matches sel file = true)
    (hnd : (cfg.instances.map (fun y => y.select)).Nodup) :
    ((run_calls cfg calls).instances.map (fun y => y.select)).Nodup := by
  induction calls generalizing cfg with
  | nil => exact hnd
  | cons call rest ih =>
    simp only [run_calls, List.foldl_cons]
    apply ih
    · intro file a sel hmem hsel
      rw [graph_call_run_select] at hsel
      exact hfiles file a sel (List.mem_cons_of_mem _ hmem) hsel
    · apply graph_call_run_nodup cfg call _ hnd
      intro file a sel hcall hsel
      exact hfiles file a sel (by rw [hcall]; exact List.mem_cons_self _ _) hsel

/-- C5, amended: in every state reached from a freshly created template by a sequence
of `graph_add_file` and `graph_clear_instances` calls in which every file added is one
the selector of the template matches (`ident_matches`), no two instances at different
positions have canonical identifiers that compare equal. -/
theorem run_calls_instances_distinct (selector : Option graph_ident_t)
    (malloc_ok clone_ok : Bool) (cfg : graph_config_t) (calls : List graph_call)
    (hcreate : graph_create selector malloc_ok clone_ok = some cfg)
    (hfiles : ∀ file a sel, graph_call.add_file file a ∈ calls → cfg.select = some sel →
      ident_matches sel file = true) :
    ∀ (i j : Nat) (x y : graph_instance_t), i ≠ j →
      (run_calls cfg calls).instances[i]? = some x →
      (run_calls cfg calls).instances[j]? = some y →
      ident_compare x.select y.select ≠ 0 := by
  have hempty : cfg.instances = [] := by
    unfold graph_create at hcreate
    cases malloc_ok with
    | false => simp at hcreate
    | true =>
      simp only [Bool.not_true, Bool.false_eq_true, if_false, Option.some.injEq] at hcreate
      rw [← hcreate]
  have hnd := run_calls_nodup calls cfg hfiles (by simp [hempty])
  intro i j x y hij hx hy hcmp
  rw [ident_compare_eq_zero_iff] at hcmp
  have hx' : ((run_calls cfg calls).instances.map (fun y => y.select))[i]? = some x.select := by
    simp [hx]
  have hy' : ((run_calls cfg calls).instances.map (fun y => y.select))[j]? = some y.select := by
    simp [hy]
  rw [List.getElem?_eq_some] at hx' hy'
  obtain ⟨hi, hxi⟩ := hx'
  obtain ⟨hj, hyj⟩ := hy'
  have := (@List.Nodup.getElem_inj_iff _ _ hnd i hi j hj).1 (by rw [hxi, hyj, hcmp])
  exact hij this

/-- C5, amended, at work: two hosts, one of them twice, under a selector with ANY as
host: the instances at positions 0 and 1 have different canonical identifiers. -/
theorem run_calls_instances_distinct_witness :
    (run_calls (template_of sel_any_host)
        [graph_call.add_file (cpu_file "a") alloc_all,
          graph_call.add_file (cpu_file "b") alloc_all,
          graph_call.add_file (cpu_file "a") alloc_all]).instances =
      [{ select := cpu_file "a", files := [cpu_file "a", cpu_file "a"] },
        { select := cpu_file "b", files := [cpu_file "b"] }] ∧
    ident_compare (cpu_file "a") (cpu_file "b") ≠ 0 :=
  ⟨by decide,
    run_calls_instances_distinct (some sel_any_host) true true (template_of sel_any_host)
      [graph_call.add_file (cpu_file "a") alloc_all,
        graph_call.add_file (cpu_file "b") alloc_all,
        graph_call.add_file (cpu_file "a") alloc_all]
      (by decide)
      (by
        intro file a sel hmem hsel
        have hs : sel = sel_any_host := by
          simp only [template_of, Option.some.injEq] at hsel
          exact hsel.symm
        subst hs
        simp only [List.mem_cons, graph_call.add_file.injEq, List.mem_singleton,
          List.not_mem_nil, or_false] at hmem
        rcases hmem with ⟨rfl, -⟩ | ⟨rfl, -⟩ | ⟨rfl, -⟩ <;> decide)
      0 1 { select := cpu_file "a", files := [cpu_file "a", cpu_file "a"] }
      { select := cpu_file "b", files := [cpu_file "b"] } (by decide) (by decide)
      (by decide)⟩

/-! ## Frame and order of `graph_add_file` -/

/-- C6: a successful `graph_add_file` appends the file to the file list of exactly one
instance of the resulting template, the reused one or the one just created (whose list
was empty), and leaves every other instance as it was. -/
theorem graph_add_file_appends_to_one (cfg : graph_config_t) (file : graph_ident_t)
    (a : alloc_t) (hs : (graph_add_file cfg file a).1 = 0) :
    ∃ i, i < (graph_add_file cfg file a).2.instances.length ∧
      files_at (graph_add_file cfg file a).2 i = files_at cfg i ++ [file] ∧
      (∀ j, j ≠ i → (graph_add_file cfg file a).2.instances[j]? = cfg.instances[j]?) ∧
      ∀ k, k < (graph_add_file cfg file a).2.instances.length →
        files_at (graph_add_file cfg file a).2 k = files_at cfg k ++ [file] → k = i := by
  have huniq : ∀ (r : graph_config_t) (i : Nat),
      (∀ j, j ≠ i → r.instances[j]? = cfg.instances[j]?) →
      ∀ k, files_at r k = files_at cfg k ++ [file] → k = i := by
    intro r i hframe k hk
    by_contra hne
    have h := hframe k hne
    simp only [files_at, h] at hk
    have hlen := congrArg List.length hk
    simp at hlen
  rcases graph_add_file_cases cfg file a with
    ⟨i0, inst0, -, hget, heq⟩ | ⟨-, -, heq⟩ | ⟨-, -, -, heq⟩ | ⟨inst1, -, -, hc, heq⟩
  · rw [heq] at hs ⊢
    have hok : a.inst_add_file_ok = true := (inst_add_file_status _ _ _).1 hs
    have hlt : i0 < cfg.instances.length := by
      rcases Nat.lt_or_ge i0 cfg.instances.length with h | h
      · exact h
      · rw [List.getElem?_eq_none h] at hget
        cases hget
    have hframe : ∀ j, j ≠ i0 →
        (cfg.instances.set i0 (inst_add_file inst0 file a.inst_add_file_ok).2)[j]?
          = cfg.instances[j]? := by
      intro j hj
      exact List.getElem?_set_ne (Ne.symm hj)
    refine ⟨i0, by simpa using hlt, ?_, hframe, ?_⟩
    · simp [files_at, hlt, hget, inst_add_file_files, hok]
    · intro k _ hk
      exact huniq _ i0 hframe k hk
  · rw [heq] at hs
    exact absurd hs ENOMEM_ne_zero
  · rw [heq] at hs
    exact absurd hs ENOMEM_ne_zero
  · rw [heq] at hs ⊢
    have hok : a.inst_add_file_ok = true := (inst_add_file_status _ _ _).1 hs
    have hfiles := (inst_create_eq_some cfg file _ inst1 hc).2
    have hframe : ∀ j, j ≠ cfg.instances.length →
        (cfg.instances ++ [(inst_add_file inst1 file a.inst_add_file_ok).2])[j]?
          = cfg.instances[j]? := by
      intro j hj
      rcases Nat.lt_or_ge j cfg.instances.length with h | h
      · exact List.getElem?_append_left h
      · rw [List.getElem?_eq_none h, List.getElem?_eq_none]
        simp only [List.length_append, List.length_singleton]
        omega
    refine ⟨cfg.instances.length, by simp, ?_, hframe, ?_⟩
    · simp [files_at, inst_add_file_files, hok, hfiles]
    · intro k _ hk
      exact huniq _ _ hframe k hk

/-- C6 at work: the second `cpu` file under a selector with ALL as host. -/
theorem graph_add_file_appends_to_one_witness :
    ∃ i, i < (graph_add_file
          (graph_add_file (template_of sel_all_host) (cpu_file "a") alloc_all).2
          (cpu_file "b") alloc_all).2.instances.length ∧
      files_at (graph_add_file
          (graph_add_file (template_of sel_all_host) (cpu_file "a") alloc_all).2
          (cpu_file "b") alloc_all).2 i =
        files_at (graph_add_file (template_of sel_all_host) (cpu_file "a") alloc_all).2 i
          ++ [cpu_file "b"] :=
  let ⟨i, h1, h2, _⟩ := graph_add_file_appends_to_one
    (graph_add_file (template_of sel_all_host) (cpu_file "a") alloc_all).2
    (cpu_file "b") alloc_all (by decide)
  ⟨i, h1, h2⟩

/-- C7: whatever `graph_add_file` returns, the canonical identifiers of the instances
after the call are those before the call, in the same order, followed by at most one new
one at the end; every instance there was keeps its position and its canonical
identifier, and its file list is as before or as before with the file appended. -/
theorem graph_add_file_keeps_order (cfg : graph_config_t) (file : graph_ident_t)
    (a : alloc_t) :
    ((graph_add_file cfg file a).2.instances.map (fun y => y.select)
        = cfg.instances.map (fun y => y.select) ∨
      ∃ c, (graph_add_file cfg file a).2.instances.map (fun y => y.select)
        = cfg.instances.map (fun y => y.select) ++ [c]) ∧
      ∀ (i : Nat) (inst : graph_instance_t), cfg.instances[i]? = some inst →
        ∃ inst', (graph_add_file cfg file a).2.instances[i]? = some inst' ∧
          inst'.select = inst.select ∧
          (inst'.files = inst.files ∨ inst'.files = inst.files ++ [file]) := by
  constructor
  · rcases graph_add_file_map_select cfg file a with h | ⟨c, -, -, h⟩
    · exact Or.inl h
    · exact Or.inr ⟨c, h⟩
  · intro i inst hi
    have hlt : i < cfg.instances.length := by
      rcases Nat.lt_or_ge i cfg.instances.length with h | h
      · exact h
      · rw [List.getElem?_eq_none h] at hi
        cases hi
    rcases graph_add_file_cases cfg file a with
      ⟨i0, inst0, -, hget, heq⟩ | ⟨-, -, heq⟩ | ⟨-, -, -, heq⟩ | ⟨inst1, -, -, -, heq⟩
    · rw [heq]
      by_cases hii : i0 = i
      · subst hii
        rw [hget] at hi
        cases hi
        refine ⟨(inst_add_file inst file a.inst_add_file_ok).2, by simp [hlt],
          inst_add_file_select _ _ _, ?_⟩
        rw [inst_add_file_files]
        cases a.inst_add_file_ok <;> simp
      · exact ⟨inst, by simp [List.getElem?_set_ne hii, hi], rfl, Or.inl rfl⟩
    · rw [heq]
      exact ⟨inst, hi, rfl, Or.inl rfl⟩
    · rw [heq]
      exact ⟨inst, hi, rfl, Or.inl rfl⟩
    · rw [heq]
      refine ⟨inst, ?_, rfl, Or.inl rfl⟩
      show (cfg.instances ++ _)[i]? = some inst
      rw [List.getElem?_append_left hlt]
      exact hi

/-- C8 fails on the code: the array grows, the instance is built and put at the end,
and then `inst_add_file` runs out of memory; `graph_add_file` returns `ENOMEM` and the
template, which had no instance, has one, with an empty file list. -/
theorem graph_add_file_failure_leaves_instance :
    graph_add_file (template_of sel_any_host) (cpu_file "a") alloc_until_add =
      (ENOMEM,
        { template_of sel_any_host with
          instances := [{ select := cpu_file "a", files := [] }] }) ∧
      (template_of sel_any_host).instances = [] := by
  decide

/-! ## Field tests and the field-scoped search -/

/-- C9: `graph_matches_field` returns true if and only if the template and the value are
non-null and the selector's value for the field is the ANY token or the ALL token
(compared case-insensitively) or is case-insensitively equal to the value; for a null
template or a null value it returns false. -/
theorem graph_matches_field_iff (cfg : Option graph_config_t) (field : graph_ident_field_t)
    (field_value : Option String) :
    (graph_matches_field cfg field field_value = true ↔
        ∃ c v s, cfg = some c ∧ field_value = some v ∧
          ident_get_field c.select field = some s ∧
          (IS_ANY (some s) = true ∨ IS_ALL (some s) = true ∨ strcasecmp s v = 0)) ∧
      graph_matches_field none field field_value = false ∧
      graph_matches_field cfg field none = false := by
  refine ⟨?_, ?_, ?_⟩
  · cases cfg with
    | none => simp [graph_matches_field]
    | some c =>
      cases field_value with
      | none => simp [graph_matches_field]
      | some v =>
        cases hs : ident_get_field c.select field with
        | none => simp [graph_matches_field, hs]
        | some s =>
          simp only [graph_matches_field, hs, Option.some.injEq, exists_and_left,
            exists_eq_left', beq_iff_eq]
          cases hall : IS_ALL (some s) <;> cases hany : IS_ANY (some s) <;>
            by_cases hcmp : strcasecmp s v = 0 <;> simp [hcmp]
  · cases field_value <;> rfl
  · cases cfg <;> rfl

/-- With a visitor that always returns 0 and no test of the instances, the loop of
`graph_inst_search_field` calls the visitor on every instance, in order. -/
theorem search_field_loop_all {σ : Type} (cfg : graph_config_t)
    (field : graph_ident_field_t) (v : String) (cb : graph_inst_callback_t σ)
    (hcb : ∀ t i s, (cb t i s).1 = 0) (l : List graph_instance_t) (u : σ) :
    search_field_loop cfg field v cb false l u =
      (0, l.foldl (fun s i => (cb cfg i s).2) u) := by
  induction l generalizing u with
  | nil => rfl
  | cons x xs ih =>
    simp only [search_field_loop, Bool.false_and, Bool.false_eq_true, if_false, hcb,
      bne_self_eq_false, List.foldl_cons]
    exact ih _

/-- C10: when the selector holds a concrete literal in the requested field and the
visitor always returns 0, `graph_inst_search_field` returns 0, and the user data it
leaves is that of calling the visitor once on every instance, in insertion order, if
the value is case-insensitively equal to the literal; if it is not, the user data is
untouched: the visitor was not called. -/
theorem graph_inst_search_field_literal {σ : Type} (cfg : graph_config_t)
    (field : graph_ident_field_t) (lit v : String) (cb : graph_inst_callback_t σ) (u : σ)
    (hlit : ident_get_field cfg.select field = some lit)
    (hany : IS_ANY (some lit) = false) (hall : IS_ALL (some lit) = false)
    (hcb : ∀ t i s, (cb t i s).1 = 0) :
    (strcasecmp lit v = 0 →
        graph_inst_search_field (some cfg) field (some v) (some cb) u =
          (0, cfg.instances.foldl (fun s i => (cb cfg i s).2) u)) ∧
      (strcasecmp lit v ≠ 0 →
        graph_inst_search_field (some cfg) field (some v) (some cb) u = (0, u)) := by
  constructor
  · intro hv
    simp only [graph_inst_search_field, graph_matches_field, hlit, hany, hall, hv,
      Bool.or_self, Bool.false_eq_true, if_false, beq_self_eq_true, if_true, Bool.not_true]
    exact search_field_loop_all cfg field v cb hcb _ u
  · intro hv
    simp [graph_inst_search_field, graph_matches_field, hlit, hany, hall, hv]

/-- C10 at work: a template whose selector names the host `a`, with two instances; a
search for the host `A` shows both to the recording visitor, in order, and a search for
the host `b` shows it none. -/
theorem graph_inst_search_field_literal_witness :
    graph_inst_search_field
        (some { template_of sel_literal with
          instances := [{ select := sel_literal, files := [cpu_file "a"] },
            { select := sel_literal, files := [] }] })
        GIF_HOST (some "A") (some record_visit) [] =
      (0, [{ select := sel_literal, files := [cpu_file "a"] },
        { select := sel_literal, files := [] }]) ∧
    graph_inst_search_field
        (some { template_of sel_literal with
          instances := [{ select := sel_literal, files := [cpu_file "a"] },
            { select := sel_literal, files := [] }] })
        GIF_HOST (some "b") (some record_visit) [] = (0, []) :=
  ⟨(graph_inst_search_field_literal
      { template_of sel_literal with
        instances := [{ select := sel_literal, files := [cpu_file "a"] },
          { select := sel_literal, files := [] }] }
      GIF_HOST "a" "A" record_visit [] rfl (by decide) (by decide)
      (fun _ _ _ => rfl)).1 (by decide),
    (graph_inst_search_field_literal
      { template_of sel_literal with
        instances := [{ select := sel_literal, files := [cpu_file "a"] },
          { select := sel_literal, files := [] }] }
      GIF_HOST "a" "b" record_visit [] rfl (by decide) (by decide)
      (fun _ _ _ => rfl)).2 (by decide)⟩

/-! ## The visiting loops -/

/-- A visitor that returns 0 on every instance of the list is called on all of them, in
order, and the loop returns 0. -/
theorem foreach_loop_all_zero {σ : Type} (cb : inst_callback_t σ)
    (l : List graph_instance_t) (u : σ) (hcb : ∀ i ∈ l, ∀ s, (cb i s).1 = 0) :
    foreach_loop cb l u = (0, l.foldl (fun s i => (cb i s).2) u) := by
  induction l generalizing u with
  | nil => rfl
  | cons x xs ih =>
    simp only [foreach_loop, hcb x (List.mem_cons_self _ _) u, bne_self_eq_false,
      Bool.false_eq_true, if_false, List.foldl_cons]
    exact ih _ (fun i hi s => hcb i (List.mem_cons_of_mem _ hi) s)

theorem search_title_loop_eq {σ : Type} (cfg : graph_config_t)
    (cb : graph_inst_callback_t σ) (l : List graph_instance_t) (u : σ) :
    search_title_loop cfg cb l u = foreach_loop (cb cfg) l u := by
  induction l generalizing u with
  | nil => rfl
  | cons x xs ih =>
    simp only [search_title_loop, foreach_loop, ih]

theorem search_term_loop_eq {σ : Type} (cfg : graph_config_t) (term : String)
    (cb : graph_inst_callback_t σ) (l : List graph_instance_t) (u : σ) :
    search_term_loop cfg term cb l u =
      foreach_loop (cb cfg) (l.filter (fun i => inst_matches_string cfg i term)) u := by
  induction l generalizing u with
  | nil => rfl
  | cons x xs ih =>
    cases hx : inst_matches_string cfg x term
    · simp [search_term_loop, hx, ih]
    · simp only [search_term_loop, hx, if_true, List.filter_cons_of_pos, foreach_loop, ih]

theorem search_field_loop_eq {σ : Type} (cfg : graph_config_t)
    (field : graph_ident_field_t) (v : String) (cb : graph_inst_callback_t σ)
    (need : Bool) (l : List graph_instance_t) (u : σ) :
    search_field_loop cfg field v cb need l u =
      foreach_loop (cb cfg)
        (l.filter (fun i => !need || inst_matches_field i field v)) u := by
  induction l generalizing u with
  | nil => rfl
  | cons x xs ih =>
    cases need <;> cases hx : inst_matches_field x field v <;>
      simp_all [search_field_loop, foreach_loop]

/-- C11: when the selector holds the ANY or the ALL token in the requested field, the
value is non-null and the visitor always returns 0, `graph_inst_search_field` returns 0
and the user data it leaves is that of calling the visitor once, in insertion order, on
exactly the instances that `inst_matches_field` accepts for the field and the value. -/
theorem graph_inst_search_field_wildcard {σ : Type} (cfg : graph_config_t)
    (field : graph_ident_field_t) (w v : String) (cb : graph_inst_callback_t σ) (u : σ)
    (hw : ident_get_field cfg.select field = some w)
    (hwild : IS_ANY (some w) = true ∨ IS_ALL (some w) = true)
    (hcb : ∀ t i s, (cb t i s).1 = 0) :
    graph_inst_search_field (some cfg) field (some v) (some cb) u =
      (0, (cfg.instances.filter (fun i => inst_matches_field i field v)).foldl
        (fun s i => (cb cfg i s).2) u) := by
  have hor : (IS_ALL (some w) || IS_ANY (some w)) = true := by
    rcases hwild with h | h <;> simp [h]
  simp only [graph_inst_search_field, graph_matches_field, hw, hor, if_true, Bool.not_true,
    Bool.false_eq_true, if_false, search_field_loop_eq, Bool.false_or]
  exact foreach_loop_all_zero _ _ _ (fun i _ s => hcb cfg i s)

/-- C11 at work: under a selector with ANY as host, a search for the host `A` shows the
recording visitor the instance of host `a` and not that of host `b`. -/
theorem graph_inst_search_field_wildcard_witness :
    graph_inst_search_field
        (some { template_of sel_any_host with
          instances := [{ select := cpu_file "b", files := [cpu_file "b"] },
            { select := cpu_file "a", files := [cpu_file "a"] }] })
        GIF_HOST (some "A") (some record_visit) [] =
      (0, [{ select := cpu_file "a", files := [cpu_file "a"] }]) :=
  graph_inst_search_field_wildcard
    { template_of sel_any_host with
      instances := [{ select := cpu_file "b", files := [cpu_file "b"] },
        { select := cpu_file "a", files := [cpu_file "a"] }] }
    GIF_HOST "/any/" "A" record_visit [] rfl (Or.inl (by decide)) (fun _ _ _ => rfl)

/-! ## `strstr`, `strtolower` and the title -/

theorem starts_with_iff (hay needle : List UInt8) :
    starts_with hay needle = true ↔ ∃ post, hay = needle ++ post := by
  induction needle generalizing hay with
  | nil => cases hay <;> simp [starts_with]
  | cons n ns ih =>
    cases hay with
    | nil => simp [starts_with]
    | cons h hs =>
      simp only [starts_with, Bool.and_eq_true, beq_iff_eq, ih, List.cons_append,
        List.cons.injEq]
      constructor
      · rintro ⟨rfl, post, rfl⟩
        exact ⟨post, rfl, rfl⟩
      · rintro ⟨post, rfl, rfl⟩
        exact ⟨rfl, post, rfl⟩

theorem strstr_loop_isSome_iff (needle hay : List UInt8) (k : Nat) :
    (strstr_loop needle hay k).isSome = true ↔ ∃ pre post, hay = pre ++ needle ++ post := by
  induction hay generalizing k with
  | nil =>
    simp only [strstr_loop]
    cases hs : starts_with [] needle with
    | true =>
      obtain ⟨post, hpost⟩ := (starts_with_iff [] needle).1 hs
      simp only [if_true, Option.isSome_some, true_iff]
      exact ⟨[], post, by simpa using hpost⟩
    | false =>
      simp only [Bool.false_eq_true, if_false, Option.isSome_none, false_iff]
      rintro ⟨pre, post, h⟩
      have hn : needle = [] := by
        have := congrArg List.length h
        simp only [List.length_nil, List.length_append] at this
        exact List.length_eq_zero.1 (by omega)
      subst hn
      simp [starts_with] at hs
  | cons h hs ih =>
    simp only [strstr_loop]
    cases hst : starts_with (h :: hs) needle with
    | true =>
      obtain ⟨post, hpost⟩ := (starts_with_iff _ needle).1 hst
      simp only [if_true, Option.isSome_some, true_iff]
      exact ⟨[], post, by simpa using hpost⟩
    | false =>
      simp only [Bool.false_eq_true, if_false, ih]
      constructor
      · rintro ⟨pre, post, rfl⟩
        exact ⟨h :: pre, post, by simp⟩
      · rintro ⟨pre, post, hp⟩
        cases pre with
        | nil =>
          exfalso
          have : starts_with (h :: hs) needle = true :=
            (starts_with_iff _ needle).2 ⟨post, by simpa using hp⟩
          rw [hst] at this
          cases this
        | cons p ps =>
          simp only [List.cons_append, List.cons.injEq] at hp
          exact ⟨ps, post, hp.2⟩

/-- The function `strstr` finds the needle exactly when the bytes of the needle stand
somewhere in the haystack. -/
theorem strstr_isSome_iff (haystack needle : List UInt8) :
    (strstr haystack needle).isSome = true ↔
      ∃ pre post, haystack = pre ++ needle ++ post :=
  strstr_loop_isSome_iff needle haystack 0

/-- No byte that `tolower` returns is an upper-case letter. -/
theorem tolower_not_upper (b : UInt8) :
    ¬ (65 ≤ (tolower b).toNat ∧ (tolower b).toNat ≤ 90) := by
  unfold tolower
  split_ifs with h
  · generalize b.toNat = n at h
    obtain ⟨h1, h2⟩ := h
    interval_cases n <;> decide
  · exact h

/-- An upper-case ASCII letter is one byte of the string, between 65 and 90. -/
theorem utf8EncodeChar_upper (ch : Char) (h : ch.isUpper = true) :
    ∃ b, String.utf8EncodeChar ch = [b] ∧ 65 ≤ b.toNat ∧ b.toNat ≤ 90 := by
  have hb : 65 ≤ ch.toNat ∧ ch.toNat ≤ 90 := by
    simp only [Char.isUpper, ge_iff_le, Bool.and_eq_true, decide_eq_true_eq,
      UInt32.le_def, Fin.le_def] at h
    exact h
  rw [← Char.ofNat_toNat ch]
  generalize ch.toNat = n at hb
  obtain ⟨h1, h2⟩ := hb
  interval_cases n <;> exact ⟨_, rfl, by decide, by decide⟩

/-- A lower-cased buffer holds no term that has an upper-case letter. -/
theorem strstr_strtolower_upper (b : List UInt8) (term : String)
    (hup : ∃ ch ∈ term.data, ch.isUpper = true) :
    strstr (strtolower b) (c_bytes term) = none := by
  cases hs : strstr (strtolower b) (c_bytes term) with
  | none => rfl
  | some k =>
    exfalso
    have hsome : (strstr (strtolower b) (c_bytes term)).isSome = true := by simp [hs]
    obtain ⟨pre, post, hd⟩ := (strstr_isSome_iff _ _).1 hsome
    obtain ⟨ch, hmem, hch⟩ := hup
    obtain ⟨x, hx, hx1, hx2⟩ := utf8EncodeChar_upper ch hch
    have hxin : x ∈ c_bytes term := by
      simp only [c_bytes, List.mem_flatMap]
      exact ⟨ch, hmem, by simp [hx]⟩
    have hin : x ∈ strtolower b := by
      rw [hd]
      simp [hxin]
    simp only [strtolower, List.mem_map] at hin
    obtain ⟨y, -, rfl⟩ := hin
    exact tolower_not_upper y ⟨hx1, hx2⟩

/-- What `graph_get_title` does when there is a title `t`: the configured one, or, when
none is configured, the string `ident_to_string` makes of the selector. -/
theorem graph_get_title_eq (cfg : graph_config_t) (t : String) (b0 : List UInt8)
    (size : Nat) (ok : Bool) (hsize : 1 ≤ size)
    (ht : cfg.title = some t ∨
      (cfg.title = none ∧ ident_to_string cfg.select ok = some t)) :
    graph_get_title (some cfg) (some b0) size ok =
      (0, some { cfg with title := some t }, some ((c_bytes t).take (size - 1))) := by
  have hlt : ¬ size < 1 := by omega
  rcases ht with h | ⟨h, hi⟩
  · simp [graph_get_title, hlt, h]
  · simp [graph_get_title, hlt, h, hi]

/-! ## Free-text search -/

/-- What `graph_inst_search` does once the title `t` is there: the bytes of the term are
looked for in the lower-cased first 1023 bytes of the title, and one of the two loops
runs. -/
theorem graph_inst_search_eq {σ : Type} (cfg : graph_config_t) (t term : String)
    (cb : graph_inst_callback_t σ) (u : σ) (ok : Bool)
    (ht : cfg.title = some t ∨
      (cfg.title = none ∧ ident_to_string cfg.select ok = some t)) :
    graph_inst_search (some cfg) term cb u ok =
      if (strstr (strtolower ((c_bytes t).take 1023)) (c_bytes term)).isSome then
        ((foreach_loop (cb { cfg with title := some t }) cfg.instances u).1,
          some { cfg with title := some t },
          (foreach_loop (cb { cfg with title := some t }) cfg.instances u).2)
      else
        ((foreach_loop (cb { cfg with title := some t })
            (cfg.instances.filter
              (fun i => inst_matches_string { cfg with title := some t } i term)) u).1,
          some { cfg with title := some t },
          (foreach_loop (cb { cfg with title := some t })
            (cfg.instances.filter
              (fun i => inst_matches_string { cfg with title := some t } i term)) u).2) := by
  have hg := graph_get_title_eq cfg t [] 1024 ok (by decide) ht
  simp only [graph_inst_search, hg, bne_self_eq_false, Bool.false_eq_true, if_false,
    Option.getD_some, search_title_loop_eq, search_term_loop_eq]

/-- C12, as stated, fails: the term `Load` is a substring of the configured title
`Load`, and `graph_inst_search` shows the visitor none of the instances: the title is
lower-cased before the term is looked for, the term is not, and the only instance does
not contain the term. -/
theorem graph_inst_search_misses_title_with_capital :
    ({ template_of sel_literal with
        title := some "Load",
        instances := [{ select := cpu_file "a", files := [cpu_file "a"] }] } :
      graph_config_t).title = some "Load" ∧
    "Load".data = [] ++ "Load".data ++ [] ∧
    graph_inst_search
        (some { template_of sel_literal with
          title := some "Load",
          instances := [{ select := cpu_file "a", files := [cpu_file "a"] }] })
        "Load" record_visit [] true =
      (0,
        some { template_of sel_literal with
          title := some "Load",
          instances := [{ select := cpu_file "a", files := [cpu_file "a"] }] },
        []) := by
  decide

/-- C12, amended: let `t` be the title of the template, the configured one or, when none
is configured, the string `ident_to_string` makes of the selector, and let the visitor
always return 0. If the bytes of the term stand somewhere in the lower-cased first 1023
bytes of `t`, `graph_inst_search` calls the visitor once on every instance, in insertion
order; if they do not and `inst_matches_string` accepts no instance, the visitor is not
called; in both cases the result is 0. -/
theorem graph_inst_search_title_or_nothing {σ : Type} (cfg : graph_config_t)
    (t term : String) (cb : graph_inst_callback_t σ) (u : σ) (ok : Bool)
    (ht : cfg.title = some t ∨
      (cfg.title = none ∧ ident_to_string cfg.select ok = some t))
    (hcb : ∀ c i s, (cb c i s).1 = 0) :
    ((∃ pre post,
          strtolower ((c_bytes t).take 1023) = pre ++ c_bytes term ++ post) →
        graph_inst_search (some cfg) term cb u ok =
          (0, some { cfg with title := some t },
            cfg.instances.foldl (fun s i => (cb { cfg with title := some t } i s).2) u)) ∧
      ((¬ ∃ pre post,
          strtolower ((c_bytes t).take 1023) = pre ++ c_bytes term ++ post) →
        (∀ i ∈ cfg.instances,
          inst_matches_string { cfg with title := some t } i term = false) →
        graph_inst_search (some cfg) term cb u ok =
          (0, some { cfg with title := some t }, u)) := by
  rw [graph_inst_search_eq cfg t term cb u ok ht]
  constructor
  · intro hsub
    rw [if_pos ((strstr_isSome_iff _ _).2 hsub),
      foreach_loop_all_zero _ _ _ (fun i _ s => hcb _ i s)]
  · intro hsub hnone
    rw [if_neg (fun h => hsub ((strstr_isSome_iff _ _).1 h))]
    have hf : cfg.instances.filter
        (fun i => inst_matches_string { cfg with title := some t } i term) = [] := by
      rw [List.filter_eq_nil_iff]
      intro i hi
      rw [hnone i hi]
      decide
    rw [hf]
    rfl

/-- C12, amended, at work: the term `load` is in the lower-cased title `Load`, and the
recording visitor is shown the only instance. -/
theorem graph_inst_search_title_or_nothing_witness :
    graph_inst_search
        (some { template_of sel_literal with
          title := some "Load",
          instances := [{ select := cpu_file "a", files := [cpu_file "a"] }] })
        "load" record_visit [] true =
      (0,
        some { template_of sel_literal with
          title := some "Load",
          instances := [{ select := cpu_file "a", files := [cpu_file "a"] }] },
        [{ select := cpu_file "a", files := [cpu_file "a"] }]) :=
  (graph_inst_search_title_or_nothing
    { template_of sel_literal with
      title := some "Load",
      instances := [{ select := cpu_file "a", files := [cpu_file "a"] }] }
    "Load" "load" record_visit [] true (Or.inl rfl) (fun _ _ _ => rfl)).1
    ⟨[], [], by decide⟩

/-- C20, as stated, fails: without a configured title and with `ident_to_string` out of
memory, `graph_inst_search` returns `ENOMEM` before any loop; the term `A` has an
upper-case letter and `inst_matches_string` accepts the only instance, which the
visitor is not shown. -/
theorem graph_inst_search_visits_none_without_title :
    (∃ ch ∈ "A".data, ch.isUpper = true) ∧
    inst_matches_string
        { template_of sel_literal with
          instances := [{ select := cpu_file "a", files := [cpu_file "a"] }] }
        { select := cpu_file "a", files := [cpu_file "a"] } "A" = true ∧
    graph_inst_search
        (some { template_of sel_literal with
          instances := [{ select := cpu_file "a", files := [cpu_file "a"] }] })
        "A" record_visit [] false =
      (ENOMEM,
        some { template_of sel_literal with
          instances := [{ select := cpu_file "a", files := [cpu_file "a"] }] },
        []) := by
  refine ⟨⟨'A', by decide, by decide⟩, by decide, by decide⟩

/-- C20, amended: let `t` be the title of the template, the configured one or, when none
is configured, the string `ident_to_string` makes of the selector. For a term with at
least one upper-case ASCII letter and a visitor that always returns 0,
`graph_inst_search` returns 0 and calls the visitor, once each and in insertion order,
on exactly the instances that `inst_matches_string` accepts, whatever `t` is. -/
theorem graph_inst_search_upper_term {σ : Type} (cfg : graph_config_t)
    (t term : String) (cb : graph_inst_callback_t σ) (u : σ) (ok : Bool)
    (ht : cfg.title = some t ∨
      (cfg.title = none ∧ ident_to_string cfg.select ok = some t))
    (hup : ∃ ch ∈ term.data, ch.isUpper = true)
    (hcb : ∀ c i s, (cb c i s).1 = 0) :
    graph_inst_search (some cfg) term cb u ok =
      (0, some { cfg with title := some t },
        (cfg.instances.filter
          (fun i => inst_matches_string { cfg with title := some t } i term)).foldl
          (fun s i => (cb { cfg with title := some t } i s).2) u) := by
  rw [graph_inst_search_eq cfg t term cb u ok ht, strstr_strtolower_upper _ term hup]
  simp only [Option.isSome_none, Bool.false_eq_true, if_false]
  rw [foreach_loop_all_zero _ _ _ (fun i _ s => hcb _ i s)]

/-- C20, amended, at work: the title `A` does not draw the term `A` into the title
branch; of the two instances the visitor is shown the one that contains the term. -/
theorem graph_inst_search_upper_term_witness :
    graph_inst_search
        (some { template_of sel_literal with
          title := some "A",
          instances := [{ select := cpu_file "b", files := [] },
            { select := cpu_file "a", files := [] }] })
        "A" record_visit [] true =
      (0,
        some { template_of sel_literal with
          title := some "A",
          instances := [{ select := cpu_file "b", files := [] },
            { select := cpu_file "a", files := [] }] },
        [{ select := cpu_file "a", files := [] }]) :=
  graph_inst_search_upper_term
    { template_of sel_literal with
      title := some "A",
      instances := [{ select := cpu_file "b", files := [] },
        { select := cpu_file "a", files := [] }] }
    "A" "A" record_visit [] true (Or.inl rfl) ⟨'A', by decide, by decide⟩
    (fun _ _ _ => rfl)

/-! ## Short-circuit of the traversals -/

/-- What `graph_inst_search_field` does with a template, a value and a visitor: the
visitor runs over the instances the search selects. -/
theorem graph_inst_search_field_eq {σ : Type} (cfg : graph_config_t)
    (field : graph_ident_field_t) (v : String) (cb : graph_inst_callback_t σ) (u : σ) :
    graph_inst_search_field (some cfg) field (some v) (some cb) u =
      foreach_loop (cb cfg)
        (if graph_matches_field (some cfg) field (some v) then
          cfg.instances.filter (fun i =>
            !(IS_ALL (ident_get_field cfg.select field)
              || IS_ANY (ident_get_field cfg.select field))
            || inst_matches_field i field v)
        else []) u := by
  cases hm : graph_matches_field (some cfg) field (some v) with
  | false => simp [graph_inst_search_field, hm, foreach_loop]
  | true =>
    cases hs : ident_get_field cfg.select field with
    | none => simp [graph_matches_field, hs] at hm
    | some s => simp [graph_inst_search_field, hm, hs, search_field_loop_eq]

/-- A visitor that returns 0 on every instance of the list, at the user data it is
called with there, is called on all of them, in order, and the loop returns 0. -/
theorem foreach_loop_zero_reached {σ : Type} (cb : inst_callback_t σ)
    (l : List graph_instance_t) (u : σ)
    (hcb : ∀ pre y post, l = pre ++ y :: post →
      (cb y (pre.foldl (fun s i => (cb i s).2) u)).1 = 0) :
    foreach_loop cb l u = (0, l.foldl (fun s i => (cb i s).2) u) := by
  induction l generalizing u with
  | nil => rfl
  | cons x xs ih =>
    have hx : (cb x u).1 = 0 := hcb [] x xs rfl
    simp only [foreach_loop, hx, bne_self_eq_false, Bool.false_eq_true, if_false,
      List.foldl_cons]
    apply ih
    intro pre y post hsplit
    have := hcb (x :: pre) y post (by rw [hsplit]; rfl)
    simpa using this

/-- The loop stops at the first instance on which the visitor, called with the user
data reached there, returns a non-zero value, and returns what that call returned. -/
theorem foreach_loop_stop_reached {σ : Type} (cb : inst_callback_t σ)
    (pre : List graph_instance_t) (x : graph_instance_t) (post : List graph_instance_t)
    (u : σ)
    (hpre : ∀ p1 y p2, pre = p1 ++ y :: p2 →
      (cb y (p1.foldl (fun s i => (cb i s).2) u)).1 = 0)
    (hx : (cb x (pre.foldl (fun s i => (cb i s).2) u)).1 ≠ 0) :
    foreach_loop cb (pre ++ x :: post) u = cb x (pre.foldl (fun s i => (cb i s).2) u) := by
  induction pre generalizing u with
  | nil =>
    simp only [List.foldl_nil] at hx
    simp [foreach_loop, hx]
  | cons y ys ih =>
    have hy : (cb y u).1 = 0 := hpre [] y ys rfl
    simp only [List.cons_append, foreach_loop, hy, bne_self_eq_false, Bool.false_eq_true,
      if_false, List.foldl_cons]
    apply ih
    · intro p1 z p2 hsplit
      have := hpre (y :: p1) z p2 (by rw [hsplit]; rfl)
      simpa using this
    · simpa using hx

/-- When `graph_get_title` fails for a template and a buffer, the template is as it
was. -/
theorem graph_get_title_failed (cfg : graph_config_t) (b : List UInt8) (size : Nat)
    (ok : Bool) (h : (graph_get_title (some cfg) (some b) size ok).1 ≠ 0) :
    (graph_get_title (some cfg) (some b) size ok).2.1 = some cfg := by
  by_cases hs : size < 1
  · simp [graph_get_title, hs]
  · cases ht : cfg.title with
    | some t => simp [graph_get_title, hs, ht] at h
    | none =>
      cases hi : ident_to_string cfg.select ok with
      | none => simp [graph_get_title, hs, ht, hi]
      | some t => simp [graph_get_title, hs, ht, hi] at h

/-- C13, as stated, fails: the recording visitor returns 0 on every instance it is
shown, and `graph_inst_search` returns `ENOMEM`, not 0: no title is configured and
`ident_to_string` is out of memory, so `graph_get_title` fails and its status is
returned. -/
theorem graph_inst_search_nonzero_without_visit :
    (∀ c i s, (record_visit c i s).1 = 0) ∧
    graph_inst_search
        (some { template_of sel_literal with
          instances := [{ select := cpu_file "a", files := [cpu_file "a"] }] })
        "a" record_visit [] false =
      (ENOMEM,
        some { template_of sel_literal with
          instances := [{ select := cpu_file "a", files := [cpu_file "a"] }] },
        []) ∧
    ENOMEM ≠ 0 := by
  refine ⟨fun _ _ _ => rfl, by decide, by decide⟩

/-- C13, amended. Let `V` be the instances a traversal shows the visitor, in order: all
instances for `graph_inst_foreach`; for `graph_inst_search` with a title `t`
(configured, or made by `ident_to_string`) all instances when the term is in the
lower-cased title, else those that `inst_matches_string` accepts; for
`graph_inst_search_field` with a template, a value and a visitor, those the field
search selects. The visitor is called with the user data the earlier calls left. If it
returns 0 on the instances before `x` in `V` and a non-zero value on `x`, the traversal
returns exactly what that call returned, status and user data: no later instance is
visited. If it returns 0 on all of `V`, the traversal returns 0, with the user data
left by all the calls. If `graph_get_title` fails, `graph_inst_search` returns its
status, the template and the user data untouched: nothing is visited. -/
theorem traversals_short_circuit {σ : Type} (cfg : graph_config_t) (u : σ) :
    (∀ (cb : inst_callback_t σ),
      (∀ pre x post, cfg.instances = pre ++ x :: post →
          (∀ p1 y p2, pre = p1 ++ y :: p2 →
            (cb y (p1.foldl (fun s i => (cb i s).2) u)).1 = 0) →
          (cb x (pre.foldl (fun s i => (cb i s).2) u)).1 ≠ 0 →
          graph_inst_foreach cfg cb u = cb x (pre.foldl (fun s i => (cb i s).2) u)) ∧
        ((∀ p1 y p2, cfg.instances = p1 ++ y :: p2 →
            (cb y (p1.foldl (fun s i => (cb i s).2) u)).1 = 0) →
          graph_inst_foreach cfg cb u =
            (0, cfg.instances.foldl (fun s i => (cb i s).2) u))) ∧
    (∀ (cb : graph_inst_callback_t σ) (t term : String) (ok : Bool) (c1 : graph_config_t)
        (V : List graph_instance_t),
      (cfg.title = some t ∨ (cfg.title = none ∧ ident_to_string cfg.select ok = some t)) →
      c1 = { cfg with title := some t } →
      V = (if (strstr (strtolower ((c_bytes t).take 1023)) (c_bytes term)).isSome then
          cfg.instances
        else cfg.instances.filter (fun i => inst_matches_string c1 i term)) →
      (∀ pre x post, V = pre ++ x :: post →
          (∀ p1 y p2, pre = p1 ++ y :: p2 →
            (cb c1 y (p1.foldl (fun s i => (cb c1 i s).2) u)).1 = 0) →
          (cb c1 x (pre.foldl (fun s i => (cb c1 i s).2) u)).1 ≠ 0 →
          graph_inst_search (some cfg) term cb u ok =
            ((cb c1 x (pre.foldl (fun s i => (cb c1 i s).2) u)).1, some c1,
              (cb c1 x (pre.foldl (fun s i => (cb c1 i s).2) u)).2)) ∧
        ((∀ p1 y p2, V = p1 ++ y :: p2 →
            (cb c1 y (p1.foldl (fun s i => (cb c1 i s).2) u)).1 = 0) →
          graph_inst_search (some cfg) term cb u ok =
            (0, some c1, V.foldl (fun s i => (cb c1 i s).2) u))) ∧
    (∀ (cb : graph_inst_callback_t σ) (term : String) (ok : Bool),
      (graph_get_title (some cfg) (some []) 1024 ok).1 ≠ 0 →
      graph_inst_search (some cfg) term cb u ok =
        ((graph_get_title (some cfg) (some []) 1024 ok).1, some cfg, u)) ∧
    (∀ (cb : graph_inst_callback_t σ) (field : graph_ident_field_t) (v : String)
        (V : List graph_instance_t),
      V = (if graph_matches_field (some cfg) field (some v) then
          cfg.instances.filter (fun i =>
            !(IS_ALL (ident_get_field cfg.select field)
              || IS_ANY (ident_get_field cfg.select field))
            || inst_matches_field i field v)
        else []) →
      (∀ pre x post, V = pre ++ x :: post →
          (∀ p1 y p2, pre = p1 ++ y :: p2 →
            (cb cfg y (p1.foldl (fun s i => (cb cfg i s).2) u)).1 = 0) →
          (cb cfg x (pre.foldl (fun s i => (cb cfg i s).2) u)).1 ≠ 0 →
          graph_inst_search_field (some cfg) field (some v) (some cb) u =
            cb cfg x (pre.foldl (fun s i => (cb cfg i s).2) u)) ∧
        ((∀ p1 y p2, V = p1 ++ y :: p2 →
            (cb cfg y (p1.foldl (fun s i => (cb cfg i s).2) u)).1 = 0) →
          graph_inst_search_field (some cfg) field (some v) (some cb) u =
            (0, V.foldl (fun s i => (cb cfg i s).2) u))) := by
  refine ⟨?_, ?_, ?_, ?_⟩
  · intro cb
    constructor
    · intro pre x post hV hpre hx
      simp only [graph_inst_foreach, hV]
      exact foreach_loop_stop_reached cb pre x post u hpre hx
    · intro hall
      exact foreach_loop_zero_reached cb _ u hall
  · intro cb t term ok c1 V ht hc1 hV
    rw [graph_inst_search_eq cfg t term cb u ok ht, ← hc1]
    constructor
    · intro pre x post hsplit hpre hx
      have hstop := foreach_loop_stop_reached (cb c1) pre x post u hpre hx
      rw [hV] at hsplit
      split_ifs at hsplit ⊢ with hb
      · rw [hsplit, hstop]
      · rw [hsplit, hstop]
    · intro hall
      have hzero := foreach_loop_zero_reached (cb c1) V u hall
      rw [hV] at hzero ⊢
      split_ifs at hzero ⊢ with hb
      · rw [hzero]
      · rw [hzero]
  · intro cb term ok hfail
    have hcfg := graph_get_title_failed cfg [] 1024 ok hfail
    simp only [graph_inst_search, bne_iff_ne, ne_eq, hfail, not_false_eq_true, if_true, hcfg]
  · intro cb field v V hV
    rw [graph_inst_search_field_eq, ← hV]
    constructor
    · intro pre x post hsplit hpre hx
      rw [hsplit]
      exact foreach_loop_stop_reached _ pre x post u hpre hx
    · intro hall
      exact foreach_loop_zero_reached _ V u hall

/-- C13, amended, at work: a visitor that counts its calls and returns 7 on its second
call stops `graph_inst_foreach` at the second of three instances: the result is 7 and
the count is 2. -/
theorem traversals_short_circuit_witness :
    graph_inst_foreach
        { template_of sel_any_host with
          instances := [{ select := cpu_file "a", files := [] },
            { select := cpu_file "b", files := [] },
            { select := cpu_file "c", files := [] }] }
        (fun _ calls => (if calls = 1 then 7 else 0, calls + 1)) 0 =
      (7, 2) :=
  ((traversals_short_circuit
    ({ template_of sel_any_host with
      instances := [{ select := cpu_file "a", files := [] },
        { select := cpu_file "b", files := [] },
        { select := cpu_file "c", files := [] }] } : graph_config_t)
    (0 : Nat)).1
    (fun _ calls => (if calls = 1 then 7 else 0, calls + 1))).1
    [{ select := cpu_file "a", files := [] }] { select := cpu_file "b", files := [] }
    [{ select := cpu_file "c", files := [] }] rfl
    (by
      intro p1 y p2 h
      cases p1 with
      | nil => rfl
      | cons q qs => simp at h)
    (by decide)

/-! ## Exact lookup -/

/-- C14: `graph_inst_find_exact` returns the position of the first instance, in
insertion order, whose canonical identifier compares equal to the identifier
(`inst_compare_ident` is 0); it returns null if and only if the template or the
identifier is null or no instance compares equal. The function only reads the template:
its sole result is the instance found. -/
theorem graph_inst_find_exact_first (cfg : Option graph_config_t)
    (ident : Option graph_ident_t) :
    (graph_inst_find_exact cfg ident = none ↔
        cfg = none ∨ ident = none ∨
          ∃ c id, cfg = some c ∧ ident = some id ∧
            ∀ inst ∈ c.instances, inst_compare_ident inst id ≠ 0) ∧
      ∀ i, graph_inst_find_exact cfg ident = some i →
        ∃ c id inst, cfg = some c ∧ ident = some id ∧ c.instances[i]? = some inst ∧
          inst_compare_ident inst id = 0 ∧
          ∀ j x, j < i → c.instances[j]? = some x → inst_compare_ident x id ≠ 0 := by
  cases cfg with
  | none => simp [graph_inst_find_exact]
  | some c =>
    cases ident with
    | none => simp [graph_inst_find_exact]
    | some id =>
      constructor
      · simp [graph_inst_find_exact, find_loop_eq_none_iff]
      · intro i hi
        simp only [graph_inst_find_exact] at hi
        obtain ⟨j, inst, hij, hget, ht, hmin⟩ := find_loop_eq_some _ _ _ _ hi
        have hji : i = j := by omega
        subst hji
        refine ⟨c, id, inst, rfl, rfl, hget, by simpa using ht, ?_⟩
        intro j x hj hx
        simpa using hmin j x hj hx

/-- C14 at work: with the hosts `a` and `b` under a selector with ANY as host, the
instance of host `b` is found at position 1. -/
theorem graph_inst_find_exact_first_witness :
    ∃ c id inst,
      some (add_files (template_of sel_any_host) [cpu_file "a", cpu_file "b"]) = some c ∧
      some (cpu_file "b") = some id ∧ c.instances[1]? = some inst ∧
      inst_compare_ident inst id = 0 ∧
      ∀ j x, j < 1 → c.instances[j]? = some x → inst_compare_ident x id ≠ 0 :=
  (graph_inst_find_exact_first
    (some (add_files (template_of sel_any_host) [cpu_file "a", cpu_file "b"]))
    (some (cpu_file "b"))).2 1 (by decide)

/-! ## Exact lookup after adding files under an ANY plugin instance -/

/-- Under a selector with ANY as plugin instance and literals elsewhere, the canonical
identifier of a file is the selector with the plugin instance of the file. -/
theorem ident_copy_with_selector_any_plugin_instance (sel f : graph_ident_t)
    (hany : IS_ANY (some sel.plugin_instance) = true)
    (hlit : ∀ G, G ≠ GIF_PLUGIN_INSTANCE →
      IS_ANY (some (sel.get G)) = false ∧ IS_ALL (some (sel.get G)) = false) :
    ident_copy_with_selector (some sel) f
        (IDENT_FLAG_REPLACE_ALL ||| IDENT_FLAG_REPLACE_ANY) true =
      some { host := sel.host, plugin := sel.plugin, plugin_instance := f.plugin_instance,
             type := sel.type, type_instance := sel.type_instance } := by
  have h1 := hlit GIF_HOST (by decide)
  have h2 := hlit GIF_PLUGIN (by decide)
  have h3 := hlit GIF_TYPE (by decide)
  have h4 := hlit GIF_TYPE_INSTANCE (by decide)
  simp only [graph_ident_t.get] at h1 h2 h3 h4
  have hflag : ((IDENT_FLAG_REPLACE_ALL ||| IDENT_FLAG_REPLACE_ANY) &&&
      IDENT_FLAG_REPLACE_ANY != 0) = true := by decide
  simp [ident_copy_with_selector, part_copy_with_selector, hany, h1, h2, h3, h4, hflag]

/-- With every allocation succeeding and a selector, `graph_add_file` either appends the
file to the first instance whose canonical identifier matches it, or appends a new
instance that holds the file. -/
theorem graph_add_file_alloc_all (cfg : graph_config_t) (sel file c : graph_ident_t)
    (hsel : cfg.select = some sel)
    (hc : ident_copy_with_selector (some sel) file
      (IDENT_FLAG_REPLACE_ALL ||| IDENT_FLAG_REPLACE_ANY) true = some c) :
    (∃ i inst, cfg.instances[i]? = some inst ∧ ident_matches inst.select file = true ∧
        (graph_add_file cfg file alloc_all).2.instances =
          cfg.instances.set i { inst with files := inst.files ++ [file] }) ∨
      ((∀ x ∈ cfg.instances, ident_matches x.select file = false) ∧
        (graph_add_file cfg file alloc_all).2.instances =
          cfg.instances ++ [{ select := c, files := [file] }]) := by
  rcases graph_add_file_cases cfg file alloc_all with
    ⟨i0, inst0, hf, hget, heq⟩ | ⟨-, hr, -⟩ | ⟨-, -, hcr, -⟩ | ⟨inst1, hf, -, hcr, heq⟩
  · obtain ⟨x, hget', hm, -⟩ := graph_inst_find_matching_eq_some cfg file i0 hf
    rw [hget] at hget'
    cases hget'
    exact Or.inl ⟨i0, inst0, hget, hm, by rw [heq]; rfl⟩
  · cases hr
  · simp [inst_create, hsel, alloc_all, hc] at hcr
  · right
    refine ⟨(graph_inst_find_matching_eq_none_iff cfg file).1 hf, ?_⟩
    simp only [inst_create, hsel, alloc_all, hc, Option.some.injEq] at hcr
    subst hcr
    rw [heq]
    rfl

theorem nodup_select_unique (l : List graph_instance_t)
    (hnd : (l.map (fun y => y.select)).Nodup) (i k : Nat) (x y : graph_instance_t)
    (hx : l[i]? = some x) (hy : l[k]? = some y) (hxy : x.select = y.select) : x = y := by
  have hx' : (l.map (fun y => y.select))[i]? = some x.select := by simp [hx]
  have hy' : (l.map (fun y => y.select))[k]? = some y.select := by simp [hy]
  rw [List.getElem?_eq_some] at hx' hy'
  obtain ⟨hi, hxi⟩ := hx'
  obtain ⟨hk, hyk⟩ := hy'
  have hik : i = k :=
    (@List.Nodup.getElem_inj_iff _ _ hnd i hi k hk).1 (by rw [hxi, hyk, hxy])
  subst hik
  rw [hx] at hy
  exact Option.some.inj hy

/-- One more file, under a selector with ANY as plugin instance and literals elsewhere:
every instance still stands for a file added, and every file added is in the file list
of an instance with its canonical identifier. -/
theorem graph_add_file_keeps_files (sel : graph_ident_t) (cfg : graph_config_t)
    (done : List graph_ident_t) (f : graph_ident_t)
    (hany : IS_ANY (some sel.plugin_instance) = true)
    (hlit : ∀ G, G ≠ GIF_PLUGIN_INSTANCE →
      IS_ANY (some (sel.get G)) = false ∧ IS_ALL (some (sel.get G)) = false)
    (hsel : cfg.select = some sel)
    (h2 : ∀ inst ∈ cfg.instances, ∃ g ∈ done,
      ident_copy_with_selector (some sel) g
        (IDENT_FLAG_REPLACE_ALL ||| IDENT_FLAG_REPLACE_ANY) true = some inst.select)
    (h3 : ∀ g ∈ done, ∃ inst ∈ cfg.instances,
      ident_copy_with_selector (some sel) g
        (IDENT_FLAG_REPLACE_ALL ||| IDENT_FLAG_REPLACE_ANY) true = some inst.select ∧
      g ∈ inst.files)
    (hconc : ∀ g ∈ done, IS_ANY (some g.plugin_instance) = false ∧
      IS_ALL (some g.plugin_instance) = false)
    (hcase : ∀ g ∈ done, strcasecmp g.plugin_instance f.plugin_instance = 0 →
      g.plugin_instance = f.plugin_instance) :
    (∀ inst ∈ (graph_add_file cfg f alloc_all).2.instances, ∃ g ∈ done ++ [f],
      ident_copy_with_selector (some sel) g
        (IDENT_FLAG_REPLACE_ALL ||| IDENT_FLAG_REPLACE_ANY) true = some inst.select) ∧
    (∀ g ∈ done ++ [f], ∃ inst ∈ (graph_add_file cfg f alloc_all).2.instances,
      ident_copy_with_selector (some sel) g
        (IDENT_FLAG_REPLACE_ALL ||| IDENT_FLAG_REPLACE_ANY) true = some inst.select ∧
      g ∈ inst.files) := by
  have hcan := fun g => ident_copy_with_selector_any_plugin_instance sel g hany hlit
  rcases graph_add_file_alloc_all cfg sel f _ hsel (hcan f) with
    ⟨i0, inst0, hget, hm, heq⟩ | ⟨-, heq⟩
  · -- the file joins the instance at position `i0`
    have hlt : i0 < cfg.instances.length := by
      rcases Nat.lt_or_ge i0 cfg.instances.length with h | h
      · exact h
      · rw [List.getElem?_eq_none h] at hget
        cases hget
    obtain ⟨g0, hg0, hcg0⟩ := h2 inst0 (List.getElem?_mem hget)
    have hsel0 : ident_copy_with_selector (some sel) f
        (IDENT_FLAG_REPLACE_ALL ||| IDENT_FLAG_REPLACE_ANY) true = some inst0.select := by
      rw [hcan g0, Option.some.injEq] at hcg0
      have hpm := (ident_matches_iff inst0.select f).1 hm GIF_PLUGIN_INSTANCE
      rw [← hcg0] at hpm
      simp only [graph_ident_t.get, part_matches, (hconc g0 hg0).1, (hconc g0 hg0).2,
        Bool.false_or, beq_iff_eq] at hpm
      rw [hcan f, ← hcg0, hcase g0 hg0 hpm]
    have hnew : ({ inst0 with files := inst0.files ++ [f] } : graph_instance_t) ∈
        cfg.instances.set i0 { inst0 with files := inst0.files ++ [f] } :=
      List.mem_set _ _ hlt _
    rw [heq]
    constructor
    · intro inst hinst
      rcases List.mem_or_eq_of_mem_set hinst with hold | hnew'
      · obtain ⟨g, hg, hcg⟩ := h2 inst hold
        exact ⟨g, List.mem_append_left _ hg, hcg⟩
      · subst hnew'
        exact ⟨f, by simp, hsel0⟩
    · intro g hg
      rcases List.mem_append.1 hg with hgd | hgf
      · obtain ⟨inst, hinst, hcg, hgin⟩ := h3 g hgd
        obtain ⟨k, hk⟩ := List.getElem?_of_mem hinst
        by_cases hki : i0 = k
        · subst hki
          rw [hget] at hk
          cases hk
          exact ⟨_, hnew, hcg, List.mem_append_left _ hgin⟩
        · refine ⟨inst, ?_, hcg, hgin⟩
          apply List.getElem?_mem (n := k)
          rw [List.getElem?_set_ne hki]
          exact hk
      · simp only [List.mem_singleton] at hgf
        subst hgf
        exact ⟨_, hnew, hsel0, by simp⟩
  · -- the file gets a new instance
    rw [heq]
    constructor
    · intro inst hinst
      rcases List.mem_append.1 hinst with hold | hnew
      · obtain ⟨g, hg, hcg⟩ := h2 inst hold
        exact ⟨g, List.mem_append_left _ hg, hcg⟩
      · simp only [List.mem_singleton] at hnew
        subst hnew
        exact ⟨f, by simp, hcan f⟩
    · intro g hg
      rcases List.mem_append.1 hg with hgd | hgf
      · obtain ⟨inst, hinst, hcg, hgin⟩ := h3 g hgd
        exact ⟨inst, List.mem_append_left _ hinst, hcg, hgin⟩
      · simp only [List.mem_singleton] at hgf
        subst hgf
        exact ⟨{ select := _, files := [g] }, by simp, hcan g, by simp⟩

theorem add_files_keeps_files (sel : graph_ident_t)
    (hany : IS_ANY (some sel.plugin_instance) = true)
    (hlit : ∀ G, G ≠ GIF_PLUGIN_INSTANCE →
      IS_ANY (some (sel.get G)) = false ∧ IS_ALL (some (sel.get G)) = false)
    (rest : List graph_ident_t) :
    ∀ (cfg : graph_config_t) (done : List graph_ident_t),
      cfg.select = some sel →
      (∀ inst ∈ cfg.instances, ∃ g ∈ done,
        ident_copy_with_selector (some sel) g
          (IDENT_FLAG_REPLACE_ALL ||| IDENT_FLAG_REPLACE_ANY) true = some inst.select) →
      (∀ g ∈ done, ∃ inst ∈ cfg.instances,
        ident_copy_with_selector (some sel) g
          (IDENT_FLAG_REPLACE_ALL ||| IDENT_FLAG_REPLACE_ANY) true = some inst.select ∧
        g ∈ inst.files) →
      (cfg.instances.map (fun y => y.select)).Nodup →
      (∀ g ∈ rest, ident_matches sel g = true) →
      (∀ g ∈ done ++ rest, IS_ANY (some g.plugin_instance) = false ∧
        IS_ALL (some g.plugin_instance) = false) →
      (∀ g ∈ done ++ rest, ∀ g' ∈ done ++ rest,
        strcasecmp g.plugin_instance g'.plugin_instance = 0 →
        g.plugin_instance = g'.plugin_instance) →
      (∀ inst ∈ (add_files cfg rest).instances, ∃ g ∈ done ++ rest,
        ident_copy_with_selector (some sel) g
          (IDENT_FLAG_REPLACE_ALL ||| IDENT_FLAG_REPLACE_ANY) true = some inst.select) ∧
      (∀ g ∈ done ++ rest, ∃ inst ∈ (add_files cfg rest).instances,
        ident_copy_with_selector (some sel) g
          (IDENT_FLAG_REPLACE_ALL ||| IDENT_FLAG_REPLACE_ANY) true = some inst.select ∧
        g ∈ inst.files) ∧
      ((add_files cfg rest).instances.map (fun y => y.select)).Nodup := by
  induction rest with
  | nil =>
    intro cfg done _ h2 h3 hnd _ _ _
    simp only [add_files, List.foldl_nil, List.append_nil]
    exact ⟨h2, h3, hnd⟩
  | cons f rest ih =>
    intro cfg done hsel h2 h3 hnd hmatch hconc hcase
    have hstep := graph_add_file_keeps_files sel cfg done f hany hlit hsel h2 h3
      (fun g hg => hconc g (List.mem_append_left _ hg))
      (fun g hg => hcase g (List.mem_append_left _ hg) f (by simp))
    have hnd' : ((graph_add_file cfg f alloc_all).2.instances.map
        (fun y => y.select)).Nodup := by
      apply graph_call_run_nodup cfg (graph_call.add_file f alloc_all) _ hnd
      intro file a sel' hcall hsel'
      cases hcall
      rw [hsel] at hsel'
      cases hsel'
      exact hmatch f (by simp)
    have hassoc : (done ++ [f]) ++ rest = done ++ f :: rest := by simp
    have := ih (graph_add_file cfg f alloc_all).2 (done ++ [f])
      (by rw [graph_add_file_select]; exact hsel) hstep.1 hstep.2 hnd'
      (fun g hg => hmatch g (List.mem_cons_of_mem _ hg))
      (by rw [hassoc]; exact hconc) (by rw [hassoc]; exact hcase)
    rw [hassoc] at this
    exact this

/-- C15, as stated, fails: the files with the plugin instances `A` and `a` both match
the selector with ANY as plugin instance; the second joins the instance of the first,
and `graph_inst_find_exact` on the canonical identifier of the second finds nothing. -/
theorem graph_inst_find_exact_misses_added_file :
    IS_ANY (some sel_any_plugin_instance.plugin_instance) = true ∧
    ident_matches sel_any_plugin_instance (cpu_instance_file "A") = true ∧
    ident_matches sel_any_plugin_instance (cpu_instance_file "a") = true ∧
    ident_copy_with_selector (some sel_any_plugin_instance) (cpu_instance_file "a")
        (IDENT_FLAG_REPLACE_ALL ||| IDENT_FLAG_REPLACE_ANY) true =
      some (cpu_instance_file "a") ∧
    (add_files (template_of sel_any_plugin_instance)
        [cpu_instance_file "A", cpu_instance_file "a"]).instances =
      [{ select := cpu_instance_file "A",
         files := [cpu_instance_file "A", cpu_instance_file "a"] }] ∧
    graph_inst_find_exact
        (some (add_files (template_of sel_any_plugin_instance)
          [cpu_instance_file "A", cpu_instance_file "a"]))
        (some (cpu_instance_file "a")) = none := by
  decide

/-- C15, amended: take a selector with ANY as plugin instance and literals elsewhere, a
template with that selector and no instances, and files that the selector matches,
whose plugin instances are no wildcard tokens and are equal whenever they are equal
ignoring case. After the files were added, `graph_inst_find_exact` on the canonical
identifier of any of them returns the instance whose file list contains that file, and
on an identifier whose plugin instance is that of no file added it returns null. -/
theorem add_files_find_exact (cfg : graph_config_t) (sel : graph_ident_t)
    (files : List graph_ident_t)
    (hsel : cfg.select = some sel) (hempty : cfg.instances = [])
    (hany : IS_ANY (some sel.plugin_instance) = true)
    (hlit : ∀ G, G ≠ GIF_PLUGIN_INSTANCE →
      IS_ANY (some (sel.get G)) = false ∧ IS_ALL (some (sel.get G)) = false)
    (hmatch : ∀ f ∈ files, ident_matches sel f = true)
    (hconc : ∀ f ∈ files, IS_ANY (some f.plugin_instance) = false ∧
      IS_ALL (some f.plugin_instance) = false)
    (hcase : ∀ f ∈ files, ∀ g ∈ files,
      strcasecmp f.plugin_instance g.plugin_instance = 0 →
      f.plugin_instance = g.plugin_instance) :
    (∀ f ∈ files, ∀ c,
      ident_copy_with_selector (some sel) f
        (IDENT_FLAG_REPLACE_ALL ||| IDENT_FLAG_REPLACE_ANY) true = some c →
      ∃ i inst, graph_inst_find_exact (some (add_files cfg files)) (some c) = some i ∧
        (add_files cfg files).instances[i]? = some inst ∧ f ∈ inst.files) ∧
    (∀ id : graph_ident_t, (∀ f ∈ files, f.plugin_instance ≠ id.plugin_instance) →
      graph_inst_find_exact (some (add_files cfg files)) (some id) = none) := by
  obtain ⟨h2, h3, hnd⟩ := add_files_keeps_files sel hany hlit files cfg [] hsel
    (by simp [hempty]) (by simp) (by simp [hempty]) hmatch
    (by simpa using hconc) (by simpa using hcase)
  simp only [List.nil_append] at h2 h3
  constructor
  · intro f hf c hc
    obtain ⟨inst, hinst, hcf, hfin⟩ := h3 f hf
    rw [hc, Option.some.injEq] at hcf
    cases hfind : graph_inst_find_exact (some (add_files cfg files)) (some c) with
    | none =>
      exfalso
      simp only [graph_inst_find_exact, find_loop_eq_none_iff] at hfind
      have := hfind inst hinst
      simp [inst_compare_ident, ← hcf, (ident_compare_eq_zero_iff _ _).2 rfl] at this
    | some i =>
      simp only [graph_inst_find_exact] at hfind
      obtain ⟨j, x, hij, hget, ht, -⟩ := find_loop_eq_some _ _ _ _ hfind
      have hji : i = j := by omega
      subst hji
      simp only [inst_compare_ident, beq_iff_eq, ident_compare_eq_zero_iff] at ht
      obtain ⟨k, hk⟩ := List.getElem?_of_mem hinst
      have hxi : x = inst :=
        nodup_select_unique _ hnd i k x inst hget hk (by rw [ht, hcf])
      subst hxi
      exact ⟨i, x, rfl, hget, hfin⟩
  · intro id hid
    simp only [graph_inst_find_exact, find_loop_eq_none_iff]
    intro inst hinst
    obtain ⟨g, hg, hcg⟩ := h2 inst hinst
    rw [ident_copy_with_selector_any_plugin_instance sel g hany hlit,
      Option.some.injEq] at hcg
    simp only [inst_compare_ident, beq_eq_false_iff_ne, ne_eq, ident_compare_eq_zero_iff]
    intro heq
    apply hid g hg
    rw [← heq, ← hcg]

/-- C15, amended, at work: after the plugin instances `0` and `1`, the lookup of the
canonical identifier of the second file finds an instance that holds it. -/
theorem add_files_find_exact_witness :
    ∃ i inst,
      graph_inst_find_exact
          (some (add_files (template_of sel_any_plugin_instance)
            [cpu_instance_file "0", cpu_instance_file "1"]))
          (some (cpu_instance_file "1")) = some i ∧
      (add_files (template_of sel_any_plugin_instance)
        [cpu_instance_file "0", cpu_instance_file "1"]).instances[i]? = some inst ∧
      cpu_instance_file "1" ∈ inst.files :=
  (add_files_find_exact (template_of sel_any_plugin_instance) sel_any_plugin_instance
    [cpu_instance_file "0", cpu_instance_file "1"] rfl rfl (by decide) (by decide)
    (by decide) (by decide) (by decide)).1
    (cpu_instance_file "1") (by decide) (cpu_instance_file "1") (by decide)

/-! ## Render arguments -/

/-- C16: for a template, an instance and an argument array, `graph_get_rrdargs` returns
0 and appends to the array `-t` and the title when there is a title, then `-v` and the
vertical label when there is one, then `-l` and `0` when `show_zero` is set, and nothing
else; the elements the array had stay in front. With a null template, instance or array
it returns `EINVAL` and the array is as it was. -/
theorem graph_get_rrdargs_appends (cfg : graph_config_t) (inst : graph_instance_t)
    (args : List String) :
    graph_get_rrdargs (some cfg) (some inst) (some args) =
        (0, some (args
          ++ (match cfg.title with
            | some t => ["-t", t]
            | none => [])
          ++ (match cfg.vertical_label with
            | some v => ["-v", v]
            | none => [])
          ++ (if cfg.show_zero then ["-l", "0"] else []))) ∧
      (∀ i a, graph_get_rrdargs none i a = (EINVAL, a)) ∧
      (∀ c a, graph_get_rrdargs c none a = (EINVAL, a)) ∧
      (∀ c i, graph_get_rrdargs c i none = (EINVAL, none)) := by
  refine ⟨?_, ?_, ?_, ?_⟩
  · cases ht : cfg.title <;> cases hv : cfg.vertical_label <;> cases hz : cfg.show_zero <;>
      simp [graph_get_rrdargs, array_append, ht, hv, hz]
  · intro i a
    rfl
  · intro c a
    cases c <;> rfl
  · intro c i
    cases c <;> cases i <;> rfl

theorem graph_add_file_display (cfg : graph_config_t) (file : graph_ident_t) (a : alloc_t) :
    (graph_add_file cfg file a).2.title = cfg.title ∧
      (graph_add_file cfg file a).2.vertical_label = cfg.vertical_label ∧
      (graph_add_file cfg file a).2.show_zero = cfg.show_zero := by
  rcases graph_add_file_cases cfg file a with
    ⟨i0, inst0, -, -, heq⟩ | ⟨-, -, heq⟩ | ⟨-, -, -, heq⟩ | ⟨inst1, -, -, -, heq⟩ <;>
  rw [heq] <;> exact ⟨rfl, rfl, rfl⟩

theorem EINVAL_ne_zero : EINVAL ≠ 0 := by decide

theorem graph_get_title_no_string (cfg : graph_config_t) (buffer : Option (List UInt8))
    (size : Nat) (htitle : cfg.title = none) :
    (graph_get_title (some cfg) buffer size false).2.1 = some cfg ∧
      (graph_get_title (some cfg) buffer size false).1 ≠ 0 := by
  have hnone : ident_to_string cfg.select false = none := by
    cases cfg.select <;> rfl
  cases buffer with
  | none => exact ⟨rfl, EINVAL_ne_zero⟩
  | some b =>
    by_cases hs : size < 1
    · simp only [graph_get_title, hs, if_true]
      exact ⟨trivial, by decide⟩
    · simp only [graph_get_title, hs, if_false, htitle, hnone]
      exact ⟨trivial, by decide⟩

/-- C17, as stated, fails: no title is configured, `graph_get_title` is called once, and
the argument list of `graph_get_rrdargs` starts with `-t` and the string made of the
selector, which `graph_get_title` stored as the title. -/
theorem graph_get_rrdargs_title_after_get_title :
    (template_of sel_literal).title = none ∧
    graph_get_rrdargs
        (some (run_template_calls (template_of sel_literal)
          [(template_call.get_title (some []) 1024 true : template_call Unit)]))
        (some { select := sel_literal, files := [] }) (some []) =
      (0, some ["-t", "a/cpu/cpu"]) := by
  decide

/-- C17, amended: when no title is configured, then in every state reached by
`graph_add_file` and `graph_inst_search_field` calls, and by `graph_get_title` and
`graph_inst_search` calls for which `ident_to_string` yields no string, the arguments
that `graph_get_rrdargs` appends are those of the vertical label and of `show_zero`
only: there is no `-t` option. -/
theorem graph_get_rrdargs_no_title {σ : Type} (cfg : graph_config_t)
    (calls : List (template_call σ)) (inst : graph_instance_t) (args : List String)
    (htitle : cfg.title = none)
    (hcalls : ∀ call ∈ calls,
      (∃ f a, call = template_call.add_file f a) ∨
      (∃ field v cb u, call = template_call.inst_search_field field v cb u) ∨
      (∃ b n, call = template_call.get_title b n false) ∨
      (∃ term cb u, call = template_call.inst_search term cb u false)) :
    graph_get_rrdargs (some (run_template_calls cfg calls)) (some inst) (some args) =
      (0, some (args
        ++ (match cfg.vertical_label with
          | some v => ["-v", v]
          | none => [])
        ++ (if cfg.show_zero then ["-l", "0"] else []))) := by
  have hkeep : (run_template_calls cfg calls).title = none ∧
      (run_template_calls cfg calls).vertical_label = cfg.vertical_label ∧
      (run_template_calls cfg calls).show_zero = cfg.show_zero := by
    induction calls generalizing cfg with
    | nil => exact ⟨htitle, rfl, rfl⟩
    | cons call rest ih =>
      simp only [run_template_calls, List.foldl_cons]
      have hstep : (call.run cfg).title = none ∧
          (call.run cfg).vertical_label = cfg.vertical_label ∧
          (call.run cfg).show_zero = cfg.show_zero := by
        rcases hcalls call (List.mem_cons_self _ _) with
          ⟨f, a, rfl⟩ | ⟨field, v, cb, u, rfl⟩ | ⟨b, n, rfl⟩ | ⟨term, cb, u, rfl⟩
        · obtain ⟨h1, h2, h3⟩ := graph_add_file_display cfg f a
          exact ⟨by simp only [template_call.run]; rw [h1]; exact htitle, h2, h3⟩
        · exact ⟨htitle, rfl, rfl⟩
        · have hrun : (template_call.get_title b n false : template_call σ).run cfg = cfg := by
            simp only [template_call.run, (graph_get_title_no_string cfg b n htitle).1,
              Option.getD_some]
          rw [hrun]
          exact ⟨htitle, rfl, rfl⟩
        · have hg := graph_get_title_no_string cfg (some []) 1024 htitle
          have hrun : (template_call.inst_search term cb u false).run cfg = cfg := by
            simp only [template_call.run, graph_inst_search, bne_iff_ne, ne_eq, hg.2,
              not_false_eq_true, if_true, hg.1, Option.getD_some]
          rw [hrun]
          exact ⟨htitle, rfl, rfl⟩
      obtain ⟨h1, h2, h3⟩ := ih (call.run cfg) hstep.1
        (fun c hc => hcalls c (List.mem_cons_of_mem _ hc))
      exact ⟨h1, by rw [← hstep.2.1]; exact h2, by rw [← hstep.2.2]; exact h3⟩
  obtain ⟨h1, h2, h3⟩ := hkeep
  cases hv : cfg.vertical_label <;> cases hz : cfg.show_zero <;>
    simp [graph_get_rrdargs, array_append, h1, h2, h3, hv, hz]

/-- C17, amended, at work: a file is added and a field search made on a template with a
vertical label and no title; the arguments are `-v` and the label. -/
theorem graph_get_rrdargs_no_title_witness :
    graph_get_rrdargs
        (some (run_template_calls
          { template_of sel_any_host with vertical_label := some "load" }
          [template_call.add_file (cpu_file "a") alloc_all,
            template_call.inst_search_field GIF_HOST (some "a") (some record_visit) []]))
        (some { select := cpu_file "a", files := [cpu_file "a"] }) (some []) =
      (0, some ([] ++ ["-v", "load"] ++ [])) :=
  graph_get_rrdargs_no_title
    { template_of sel_any_host with vertical_label := some "load" }
    [template_call.add_file (cpu_file "a") alloc_all,
      template_call.inst_search_field GIF_HOST (some "a") (some record_visit) []]
    { select := cpu_file "a", files := [cpu_file "a"] } [] rfl
    (by
      intro call hcall
      simp only [List.mem_cons, List.mem_singleton, List.not_mem_nil, or_false] at hcall
      rcases hcall with rfl | rfl
      · exact Or.inl ⟨_, _, rfl⟩
      · exact Or.inr (Or.inl ⟨_, _, _, _, rfl⟩))

/-! ## The title -/

/-- C18: with a null template, a null buffer or `buffer_size < 1`, `graph_get_title`
returns `EINVAL`. Otherwise: if a title is configured it returns 0, writes the first
`buffer_size - 1` bytes of the title (all of it when it is shorter) and leaves the
template as it is; if none is configured and `ident_to_string` makes the string `t` of
the selector, it returns 0, writes `t` (cut the same way) and stores `t` as the title,
so that a second call writes the same text; and it returns `ENOMEM` exactly when no
title is configured and `ident_to_string` makes no string. -/
theorem graph_get_title_spec (cfg : Option graph_config_t) (buffer : Option (List UInt8))
    (buffer_size : Nat) (ok : Bool) :
    ((cfg = none ∨ buffer = none ∨ buffer_size < 1) →
        graph_get_title cfg buffer buffer_size ok = (EINVAL, cfg, buffer)) ∧
      (∀ c b, cfg = some c → buffer = some b → 1 ≤ buffer_size →
        (∀ t, c.title = some t →
          graph_get_title cfg buffer buffer_size ok =
            (0, some c, some ((c_bytes t).take (buffer_size - 1)))) ∧
        (∀ t, c.title = none → ident_to_string c.select ok = some t →
          graph_get_title cfg buffer buffer_size ok =
            (0, some { c with title := some t },
              some ((c_bytes t).take (buffer_size - 1))) ∧
          ∀ b' ok', graph_get_title (some { c with title := some t }) (some b')
              buffer_size ok' =
            (0, some { c with title := some t },
              some ((c_bytes t).take (buffer_size - 1)))) ∧
        ((graph_get_title cfg buffer buffer_size ok).1 = ENOMEM ↔
          c.title = none ∧ ident_to_string c.select ok = none)) := by
  constructor
  · intro h
    cases cfg with
    | none => rfl
    | some c =>
      cases buffer with
      | none => rfl
      | some b =>
        rcases h with h | h | h
        · cases h
        · cases h
        · simp [graph_get_title, h]
  · intro c b hc hb hsize
    subst hc hb
    have hlt : ¬ buffer_size < 1 := by omega
    refine ⟨?_, ?_, ?_⟩
    · intro t ht
      have := graph_get_title_eq c t b buffer_size ok hsize (Or.inl ht)
      rw [this]
      have hc : ({ c with title := some t } : graph_config_t) = c := by
        cases c
        simp only at ht
        subst ht
        rfl
      rw [hc]
    · intro t ht hi
      exact ⟨graph_get_title_eq c t b buffer_size ok hsize (Or.inr ⟨ht, hi⟩),
        fun b' ok' => graph_get_title_eq _ t b' buffer_size ok' hsize (Or.inl rfl)⟩
    · cases ht : c.title with
      | some t => simp [graph_get_title, hlt, ht, ENOMEM]
      | none =>
        cases hi : ident_to_string c.select ok with
        | none => simp [graph_get_title, hlt, ht, hi]
        | some t => simp [graph_get_title, hlt, ht, hi, ENOMEM]

/-- C18 at work: the title `éé` is four bytes, `c3 a9 c3 a9`; a buffer of three bytes
gets the first two of them. -/
theorem graph_get_title_spec_witness :
    graph_get_title (some { template_of sel_literal with title := some "éé" })
        (some []) 3 true =
      (0, some { template_of sel_literal with title := some "éé" }, some [0xc3, 0xa9]) :=
  ((graph_get_title_spec (some { template_of sel_literal with title := some "éé" })
    (some []) 3 true).2 _ _ rfl rfl (by decide)).1 "éé" rfl

/-! ## The status of the field-scoped search -/

theorem foreach_loop_status {σ : Type} (cb : inst_callback_t σ)
    (l : List graph_instance_t) (u : σ) :
    (foreach_loop cb l u).1 = 0 ∨
      ∃ x ∈ l, ∃ s, (cb x s).1 ≠ 0 ∧ (foreach_loop cb l u).1 = (cb x s).1 := by
  induction l generalizing u with
  | nil => exact Or.inl rfl
  | cons y ys ih =>
    simp only [foreach_loop]
    by_cases hy : (cb y u).1 = 0
    · simp only [hy, bne_self_eq_false, Bool.false_eq_true, if_false]
      rcases ih (cb y u).2 with h | ⟨x, hx, s, hs, heq⟩
      · exact Or.inl h
      · exact Or.inr ⟨x, List.mem_cons_of_mem _ hx, s, hs, heq⟩
    · have hne : ((cb y u).1 != 0) = true := by simpa using hy
      simp only [hne, if_true]
      exact Or.inr ⟨y, List.mem_cons_self _ _, u, hy, rfl⟩

/-- C19: the result of `graph_inst_search_field` is `EINVAL`, with a null template,
value or visitor; or 0; or a non-zero value that the visitor returned on an instance of
the template. The branch that returns -1 is never taken: where `graph_matches_field`
returned true, the selector has a value for the field. -/
theorem graph_inst_search_field_status {σ : Type} (cfg : Option graph_config_t)
    (field : graph_ident_field_t) (field_value : Option String)
    (callback : Option (graph_inst_callback_t σ)) (u : σ) :
    (((graph_inst_search_field cfg field field_value callback u).1 = EINVAL ∧
          (cfg = none ∨ field_value = none ∨ callback = none)) ∨
        (graph_inst_search_field cfg field field_value callback u).1 = 0 ∨
        ∃ c cb inst s, cfg = some c ∧ callback = some cb ∧ inst ∈ c.instances ∧
          (cb c inst s).1 ≠ 0 ∧
          (graph_inst_search_field cfg field field_value callback u).1 = (cb c inst s).1) ∧
      (∀ c v, cfg = some c → field_value = some v →
        graph_matches_field cfg field field_value = true →
        ident_get_field c.select field ≠ none) := by
  constructor
  · cases cfg with
    | none => exact Or.inl ⟨rfl, Or.inl rfl⟩
    | some c =>
      cases field_value with
      | none => exact Or.inl ⟨rfl, Or.inr (Or.inl rfl)⟩
      | some v =>
        cases callback with
        | none => exact Or.inl ⟨rfl, Or.inr (Or.inr rfl)⟩
        | some cb =>
          right
          rw [graph_inst_search_field_eq]
          rcases foreach_loop_status (cb c)
              (if graph_matches_field (some c) field (some v) then
                c.instances.filter (fun i =>
                  !(IS_ALL (ident_get_field c.select field)
                    || IS_ANY (ident_get_field c.select field))
                  || inst_matches_field i field v)
              else []) u with h | ⟨x, hx, s, hs, heq⟩
          · exact Or.inl h
          · right
            refine ⟨c, cb, x, s, rfl, rfl, ?_, hs, heq⟩
            split_ifs at hx
            · exact (List.mem_filter.1 hx).1
            · cases hx
  · intro c v hc hv hm
    subst hc hv
    intro hnone
    simp [graph_matches_field, hnone] at hm

/-- C19 at work: `graph_matches_field` accepts the host `A` for the selector host `a`,
so the selector has a value for the host. -/
theorem graph_inst_search_field_status_witness :
    ident_get_field (template_of sel_literal).select GIF_HOST ≠ none :=
  (graph_inst_search_field_status (some (template_of sel_literal)) GIF_HOST (some "A")
    (some record_visit) []).2 (template_of sel_literal) "A" rfl rfl (by decide)

end Collection4
